import Mathlib

/-!
# Project_3: structured grid generation by transfinite interpolation

A shallow embedding of `src/Domain.cpp` (class `Domain`) and the properties of
its specification that concern construction, grid generation, copying,
assignment and export.

Conventions of the embedding.

* `double` is an arbitrary linearly ordered field `α`; the hyperbolic tangent of
  `<cmath>` is a parameter `tanh : α → α`.  Statements that need the analytic
  properties of the hyperbolic tangent are made at `α = ℝ` with `Real.tanh`.
  The definitions are computable and can be run at `α = ℚ`.
* `int` is `Int`.  The member functions are read over the mathematical
  integers; `generate_grid32` is `generate_grid` with every `int` expression
  evaluated on 32 bits (wrap-around, and an array-new expression that throws
  for a negative length).  The two agree whenever `(nx + 1) * (ny + 1)` is
  representable (`generate_grid32_eq`), and the statement about the number of
  points produced is made on `generate_grid32`.
* A heap block `new T[n]` is a list of `n` cells of type `Option T`; a cell is
  `none` until it is written.  A read outside the block or of a cell that was
  never written has no defined value (`none`), and a value computed from an
  undefined one is undefined.
* `exit(EXIT_FAILURE)` is a result `Except.error` carrying the reason; member
  functions return the result together with the state of the object at that
  moment.
* The subscript expressions and the curve evaluations a call meets are listed,
  in program order, by separate definitions that follow the same loops.
-/

namespace Project3

/-- The three places where the program leaves through `exit(EXIT_FAILURE)`. -/
inductive Failure where
  /-- Domain.cpp:16, "No valid boundary curves provided." -/
  | noValidBoundaryCurves
  /-- Domain.cpp:119, "ERROR: Invalid grid sizes provided." -/
  | invalidGridSizes
  /-- Domain.cpp:208, "ERROR: No grid has been generated previously." -/
  | noGridGenerated
  deriving DecidableEq

/-- The interface the domain consumes from a boundary curve (Curve.h is not part
of the sources at hand): the two coordinate functions of the parameter. -/
structure Curvebase (α : Type) where
  /-- The abscissa at parameter t. -/
  x : α → α
  /-- The ordinate at parameter t. -/
  y : α → α

/-- The struct of sampled boundary points used by generate_grid
(Domain.cpp:143-146). -/
structure Points (α : Type) where
  /-- First coordinate. -/
  x : α
  /-- Second coordinate. -/
  y : α

/-- The private members of class Domain (Domain.h:15-18).  A null pointer is
`none`; a non-null `double*` is the block it points to. -/
structure Domain (α : Type) where
  /-- Member `int nx`. -/
  nx : Int
  /-- Member `int ny`. -/
  ny : Int
  /-- Member `double* x_`. -/
  x_ : Option (List (Option α))
  /-- Member `double* y_`. -/
  y_ : Option (List (Option α))
  /-- Member `Curvebase* sides[4]`: bottom, right, top, left. -/
  sides : Fin 4 → Curvebase α

section Memory

variable {β : Type}

/-- The expression `new T[n]`: a fresh block of n cells, none written yet. -/
def newArray (n : Nat) : List (Option β) :=
  List.replicate n none

/-- The assignment `a[k] = v`.  A store outside the block, which C++ leaves
undefined, is modelled as leaving the block as it is. -/
def store (a : List (Option β)) (k : Nat) (v : Option β) : List (Option β) :=
  a.set k v

/-- The value of the expression `a[k]`: defined when k lies inside the block and
the cell has been written. -/
def load (a : List (Option β)) (k : Nat) : Option β :=
  (a[k]?).join

end Memory

section Code

variable {α : Type} [LinearOrderedField α]

/-- Domain.cpp:3, `constexpr double SMALL = 1e-5`. -/
def SMALL : α := 1e-5

/-- Domain.cpp:92-112, `Domain::check_consistency`. -/
def check_consistency (sides : Fin 4 → Curvebase α) : Bool :=
  let correct := true
  -- Lower left corner
  let correct := correct && decide (|(sides 3).x 0 - (sides 0).x 0| < SMALL)
  let correct := correct && decide (|(sides 3).y 0 - (sides 0).y 0| < SMALL)
  -- Lower right corner
  let correct := correct && decide (|(sides 0).x 1 - (sides 1).x 0| < SMALL)
  let correct := correct && decide (|(sides 0).y 1 - (sides 1).y 0| < SMALL)
  -- Upper right corner
  let correct := correct && decide (|(sides 1).x 1 - (sides 2).x 1| < SMALL)
  let correct := correct && decide (|(sides 1).y 1 - (sides 2).y 1| < SMALL)
  -- Upper left corner
  let correct := correct && decide (|(sides 2).x 0 - (sides 3).x 1| < SMALL)
  let correct := correct && decide (|(sides 2).y 0 - (sides 3).y 1| < SMALL)
  correct

/-- Domain.cpp:5-22, the constructor `Domain::Domain(bottom, right, top, left)`.
On failure the process exits and no object comes into existence. -/
def Domain.construct (bottom right top left : Curvebase α) :
    Except Failure (Domain α) :=
  let sides : Fin 4 → Curvebase α := ![bottom, right, top, left]
  if !check_consistency sides then
    .error .noValidBoundaryCurves
  else
    .ok { sides := sides, nx := 0, ny := 0, x_ := none, y_ := none }

/-- Domain.cpp:164, the lambda `phi0`. -/
def phi0 (s : α) : α := 1 - s

/-- Domain.cpp:165, the lambda `phi1`. -/
def phi1 (s : α) : α := s

/-- Domain.cpp:157 and 171, the clustered parameter
`1.0 + tanh(3 * (hy * i - 1.0)) / tanh(3)`. -/
def eta (tanh : α → α) (hy : α) (i : Nat) : α :=
  1 + tanh (3 * (hy * (i : α) - 1)) / tanh 3

/-- Domain.cpp:116-201, `Domain::generate_grid`, with the `int` expressions read
over the mathematical integers; `generate_grid32` evaluates them on 32 bits. -/
def generate_grid (tanh : α → α) (d : Domain α) (nX nY : Int) :
    Except Failure Unit × Domain α :=
  -- Check on user input
  if nX ≤ 0 ∨ nY ≤ 0 then
    (.error .invalidGridSizes, d)
  else
    -- Set sizes and allocate memory (the old blocks, if any, are released)
    let nx : Int := nX
    let ny : Int := nY
    let x0 : List (Option α) := newArray ((nx + 1) * (ny + 1)).toNat
    let y0 : List (Option α) := newArray ((nx + 1) * (ny + 1)).toNat
    -- Grid spacings
    let hx : α := 1 / (nx : α)
    let hy : α := 1 / (ny : α)
    -- Arrays for storing the boundary points
    let botPts0 : List (Option (Points α)) := newArray (nx + 1).toNat
    let topPts0 : List (Option (Points α)) := newArray (nx + 1).toNat
    let leftPts0 : List (Option (Points α)) := newArray (ny + 1).toNat
    let rightPts0 : List (Option (Points α)) := newArray (ny + 1).toNat
    -- Points of the lower and upper boundaries
    let bt := (List.range (nx + 1).toNat).foldl
      (fun (s : List (Option (Points α)) × List (Option (Points α))) (i : Nat) =>
        let xi := hx * (i : α)
        (store s.1 i (some ⟨(d.sides 0).x xi, (d.sides 0).y xi⟩),
         store s.2 i (some ⟨(d.sides 2).x xi, (d.sides 2).y xi⟩)))
      (botPts0, topPts0)
    let botPts := bt.1
    let topPts := bt.2
    -- Points of the left and right boundaries
    let lr := (List.range (ny + 1).toNat).foldl
      (fun (s : List (Option (Points α)) × List (Option (Points α))) (i : Nat) =>
        let eta := eta tanh hy i
        (store s.1 i (some ⟨(d.sides 3).x eta, (d.sides 3).y eta⟩),
         store s.2 i (some ⟨(d.sides 1).x eta, (d.sides 1).y eta⟩)))
      (leftPts0, rightPts0)
    let leftPts := lr.1
    let rightPts := lr.2
    -- Transfinite grid interpolation
    let xy := (List.range (ny + 1).toNat).foldl
      (fun (s : List (Option α) × List (Option α)) (j : Nat) =>
        (List.range (nx + 1).toNat).foldl
          (fun (s : List (Option α) × List (Option α)) (i : Nat) =>
            let xi := hx * (i : α)
            let eta := eta tanh hy j
            let k := ((j : Int) * (nx + 1) + (i : Int)).toNat
            let vx : Option α := do
              let lj ← load leftPts j
              let rj ← load rightPts j
              let bi ← load botPts i
              let ti ← load topPts i
              let b0 ← load botPts 0
              let r0 ← load rightPts 0
              pure (phi0 xi * lj.x
                + phi1 xi * rj.x
                + phi0 eta * bi.x
                + phi1 eta * ti.x
                - phi0 xi * phi0 eta * b0.x
                - phi1 xi * phi0 eta * r0.x
                - phi0 xi * phi1 eta * b0.x
                - phi1 xi * phi1 eta * r0.x)
            let vy : Option α := do
              let lj ← load leftPts j
              let rj ← load rightPts j
              let bi ← load botPts i
              let ti ← load topPts i
              let l0 ← load leftPts 0
              let t0 ← load topPts 0
              pure (phi0 xi * lj.y
                + phi1 xi * rj.y
                + phi0 eta * bi.y
                + phi1 eta * ti.y
                - phi0 xi * phi0 eta * l0.y
                - phi1 xi * phi0 eta * l0.y
                - phi0 xi * phi1 eta * t0.y
                - phi1 xi * phi1 eta * t0.y)
            (store s.1 k vx, store s.2 k vy))
          s)
      (x0, y0)
    (.ok (), { d with nx := nx, ny := ny, x_ := some xy.1, y_ := some xy.2 })

/-- Domain.cpp:205-221, `Domain::print_grid`.  The file written is modelled by
the list of its records, one pair of values per line, in the order of writing.
The member function is const: the state it returns is the one it was given. -/
def print_grid (d : Domain α) :
    Except Failure (List (Option α × Option α)) × Domain α :=
  -- Check if the grid has been generated
  match d.x_, d.y_ with
  | some x_, some y_ =>
    let gridFile := (List.range (d.ny + 1).toNat).foldl
      (fun (out : List (Option α × Option α)) (j : Nat) =>
        (List.range (d.nx + 1).toNat).foldl
          (fun (out : List (Option α × Option α)) (i : Nat) =>
            let k := ((j : Int) * (d.nx + 1) + (i : Int)).toNat
            out ++ [(load x_ k, load y_ k)])
          out)
      []
    (.ok gridFile, d)
  | _, _ => (.error .noGridGenerated, d)

end Code

namespace Spec

variable {α : Type} [LinearOrderedField α]

/-- Following the specification, step 2: the uniform parameter ξ_i = i·hx with
hx = 1/nx. -/
def xi (nx i : Nat) : α :=
  (i : α) * (1 / (nx : α))

/-- Following the specification, step 3: the clustered parameter
η_j = 1 + tanh(3·(j·hy − 1)) / tanh(3) with hy = 1/ny. -/
def eta (tanh : α → α) (ny j : Nat) : α :=
  1 + tanh (3 * ((j : α) * (1 / (ny : α)) - 1)) / tanh 3

/-- Following the specification, step 4: the blended abscissa x(ξ,η) of grid
point (i, j), from the bottom and top curves sampled at ξ_i and the left and
right curves sampled at η_j. -/
def x (tanh : α → α) (bottom right top left : Curvebase α)
    (nx ny i j : Nat) : α :=
  let ξ : α := xi nx i
  let η : α := eta tanh ny j
  let bot_x : Nat → α := fun i => bottom.x (xi nx i)
  let top_x : Nat → α := fun i => top.x (xi nx i)
  let left_x : Nat → α := fun j => left.x (eta tanh ny j)
  let right_x : Nat → α := fun j => right.x (eta tanh ny j)
  (1 - ξ) * left_x j + ξ * right_x j + (1 - η) * bot_x i + η * top_x i
    - (1 - ξ) * (1 - η) * bot_x 0 - ξ * (1 - η) * right_x 0
    - (1 - ξ) * η * bot_x 0 - ξ * η * right_x 0

/-- Following the specification, step 4: the blended ordinate y(ξ,η) of grid
point (i, j). -/
def y (tanh : α → α) (bottom right top left : Curvebase α)
    (nx ny i j : Nat) : α :=
  let ξ : α := xi nx i
  let η : α := eta tanh ny j
  let bot_y : Nat → α := fun i => bottom.y (xi nx i)
  let top_y : Nat → α := fun i => top.y (xi nx i)
  let left_y : Nat → α := fun j => left.y (eta tanh ny j)
  let right_y : Nat → α := fun j => right.y (eta tanh ny j)
  (1 - ξ) * left_y j + ξ * right_y j + (1 - η) * bot_y i + η * top_y i
    - (1 - ξ) * (1 - η) * left_y 0 - ξ * (1 - η) * left_y 0
    - (1 - ξ) * η * top_y 0 - ξ * η * top_y 0

end Spec

section Observations

variable {α : Type} [LinearOrderedField α]

/-- The value of `p[k]` for a member pointer p that may be null: undefined for
the null pointer, otherwise the value of cell k of the block. -/
def cell (p : Option (List (Option α))) (k : Nat) : Option α :=
  p.bind (fun a => load a k)

/-- The four corners meet exactly, in the pairing of check_consistency:
left(0) = bottom(0), bottom(1) = right(0), right(1) = top(1), top(0) = left(1),
in both coordinates. -/
def CornersMeet (bottom right top left : Curvebase α) : Prop :=
  (left.x 0 = bottom.x 0 ∧ left.y 0 = bottom.y 0)
  ∧ (bottom.x 1 = right.x 0 ∧ bottom.y 1 = right.y 0)
  ∧ (right.x 1 = top.x 1 ∧ right.y 1 = top.y 1)
  ∧ (top.x 0 = left.x 1 ∧ top.y 0 = left.y 1)

/-- The grid held by the domain reproduces the boundary samples: row 0 is the
bottom curve and row ny the top curve at the parameters ξ_i, column 0 is the
left curve and column nx the right curve at the parameters η_j, in both
coordinates. -/
def ReproducesBoundary (tanh : α → α) (d : Domain α)
    (bottom right top left : Curvebase α) (nx ny : Nat) : Prop :=
  (∀ i, i ≤ nx →
    cell d.x_ (0 * (nx + 1) + i) = some (bottom.x (Spec.xi nx i))
    ∧ cell d.y_ (0 * (nx + 1) + i) = some (bottom.y (Spec.xi nx i))
    ∧ cell d.x_ (ny * (nx + 1) + i) = some (top.x (Spec.xi nx i))
    ∧ cell d.y_ (ny * (nx + 1) + i) = some (top.y (Spec.xi nx i)))
  ∧ (∀ j, j ≤ ny →
    cell d.x_ (j * (nx + 1) + 0) = some (left.x (Spec.eta tanh ny j))
    ∧ cell d.y_ (j * (nx + 1) + 0) = some (left.y (Spec.eta tanh ny j))
    ∧ cell d.x_ (j * (nx + 1) + nx) = some (right.x (Spec.eta tanh ny j))
    ∧ cell d.y_ (j * (nx + 1) + nx) = some (right.y (Spec.eta tanh ny j)))

/-- The corners span an axis-aligned rectangle: the two ends of the left side
have the same abscissa, so have the two ends of the right side, and the two
ends of the bottom side have the same ordinate, so have the two ends of the
top side. -/
def RectangularCorners (bottom right top left : Curvebase α) : Prop :=
  left.x 1 = left.x 0 ∧ right.x 1 = right.x 0
  ∧ bottom.y 1 = bottom.y 0 ∧ top.y 1 = top.y 0

end Observations

namespace Sample

variable {α : Type} [LinearOrderedField α]

/-- Test data: the bottom side of the unit square, from (0,0) to (1,0). -/
def bottom : Curvebase α := ⟨fun t => t, fun _ => 0⟩

/-- Test data: the right side of the unit square, from (1,0) to (1,1). -/
def right : Curvebase α := ⟨fun _ => 1, fun t => t⟩

/-- Test data: the top side of the unit square, from (0,1) to (1,1). -/
def top : Curvebase α := ⟨fun t => t, fun _ => 1⟩

/-- Test data: the left side of the unit square, from (0,0) to (0,1). -/
def left : Curvebase α := ⟨fun _ => 0, fun t => t⟩

/-- Test data: a slanted right side, from (1,0) to (2,1). -/
def slantRight : Curvebase α := ⟨fun t => 1 + t, fun t => t⟩

/-- Test data: a top side from (0,1) to (2,1), meeting the slanted right
side. -/
def longTop : Curvebase α := ⟨fun t => 2 * t, fun _ => 1⟩

/-- Test data: the domain over the unit square, as the constructor leaves
it. -/
def square : Domain α :=
  { nx := 0, ny := 0, x_ := none, y_ := none, sides := ![bottom, right, top, left] }

/-- Test data: the domain over the trapezium with corners (0,0), (1,0), (2,1),
(0,1), as the constructor leaves it. -/
def trapezium : Domain α :=
  { nx := 0, ny := 0, x_ := none, y_ := none,
    sides := ![bottom, slantRight, longTop, left] }

/-- Test data: the domain over the unit square holding the four corner points
as a 1 by 1 grid. -/
def gridded : Domain α :=
  { nx := 1, ny := 1,
    x_ := some [some 0, some 1, some 0, some 1],
    y_ := some [some 0, some 0, some 1, some 1],
    sides := ![bottom, right, top, left] }

end Sample

section CopyAssign

variable {α : Type}

/-- The call `memcpy(dst, src, n * sizeof(double))`: cells 0..n-1 of dst receive
what cells 0..n-1 of src hold. -/
def memcpy (dst src : List (Option α)) (n : Nat) : List (Option α) :=
  (List.range n).foldl (fun a k => store a k (load src k)) dst

/-- Domain.cpp:25-43, the copy constructor `Domain::Domain(const Domain& other)`.
Returns the new object together with the object copied from. -/
def Domain.copy (other : Domain α) : Domain α × Domain α :=
  let sides : Fin 4 → Curvebase α := fun i => other.sides i
  let nx : Int := other.nx
  let ny : Int := other.ny
  -- Use memcpy if the grid has already been generated
  match other.x_, other.y_ with
  | some ox, some oy =>
    let x_ : List (Option α) := newArray ((nx + 1) * (ny + 1)).toNat
    let y_ : List (Option α) := newArray ((nx + 1) * (ny + 1)).toNat
    let x_ := memcpy x_ ox ((nx + 1) * (ny + 1)).toNat
    let y_ := memcpy y_ oy ((nx + 1) * (ny + 1)).toNat
    ({ nx := nx, ny := ny, x_ := some x_, y_ := some y_, sides := sides }, other)
  | _, _ =>
    ({ nx := 0, ny := 0, x_ := none, y_ := none, sides := sides }, other)

/-- Domain.cpp:54-89, `Domain::operator=`, run on the object `target` with the
argument `other`.  The flag `aliased` is the outcome of the comparison
`this != &other` being false, that is, other is the target itself.  Returns the
target together with the argument. -/
def Domain.assign (target other : Domain α) (aliased : Bool) : Domain α × Domain α :=
  -- self-assignment check
  if aliased then
    (target, other)
  else
    -- Copy side pointers
    let sides : Fin 4 → Curvebase α := fun i => other.sides i
    -- If the sizes don't match
    if target.nx ≠ other.nx ∨ target.ny ≠ other.ny then
      let nx : Int := other.nx
      let ny : Int := other.ny
      -- If the grid was previously initialized
      match other.x_, other.y_ with
      | some ox, some oy =>
        let x_ : List (Option α) := newArray ((nx + 1) * (ny + 1)).toNat
        let y_ : List (Option α) := newArray ((nx + 1) * (ny + 1)).toNat
        -- Otherwise, copy the contents onto the current instance
        let x_ := memcpy x_ ox ((nx + 1) * (ny + 1)).toNat
        let y_ := memcpy y_ oy ((nx + 1) * (ny + 1)).toNat
        ({ nx := nx, ny := ny, x_ := some x_, y_ := some y_, sides := sides }, other)
      | _, _ =>
        -- If not, then set nullptr and 0 sizes
        ({ nx := 0, ny := 0, x_ := none, y_ := none, sides := sides }, other)
    else
      ({ target with sides := sides }, other)

end CopyAssign

section GridCorners

variable {α : Type} [LinearOrderedField α]

/-- Grid point (i, j) of the domain, read at index j·(nx+1)+i of the two blocks,
is the point (px, py). -/
def GridPointIs (d : Domain α) (nx i j : Nat) (px py : α) : Prop :=
  cell d.x_ (j * (nx + 1) + i) = some px ∧ cell d.y_ (j * (nx + 1) + i) = some py

/-- The four corner points of the grid are the curve evaluations compared by the
consistency check: grid(0, 0) = bottom(0) = left(0), grid(nx, 0) = bottom(1) =
right(0), grid(nx, ny) = right(1) = top(1), grid(0, ny) = top(0) = left(1). -/
def GridCornersMatch (d : Domain α) (bottom right top left : Curvebase α)
    (nx ny : Nat) : Prop :=
  (GridPointIs d nx 0 0 (bottom.x 0) (bottom.y 0)
    ∧ GridPointIs d nx 0 0 (left.x 0) (left.y 0))
  ∧ (GridPointIs d nx nx 0 (bottom.x 1) (bottom.y 1)
    ∧ GridPointIs d nx nx 0 (right.x 0) (right.y 0))
  ∧ (GridPointIs d nx nx ny (right.x 1) (right.y 1)
    ∧ GridPointIs d nx nx ny (top.x 1) (top.y 1))
  ∧ (GridPointIs d nx 0 ny (top.x 0) (top.y 0)
    ∧ GridPointIs d nx 0 ny (left.x 1) (left.y 1))

end GridCorners

section Reachability

variable {α : Type} [LinearOrderedField α]

/-- The states a Domain object can be in: the state left by a successful
construction, and every state obtained from such states by generate_grid (with
any sizes, accepted or rejected), copy construction, assignment (to itself or
from another object) and print_grid. -/
inductive Reachable (tanh : α → α) : Domain α → Prop where
  /-- The state left by the constructor. -/
  | constructed (bottom right top left : Curvebase α) (d : Domain α) :
      Domain.construct bottom right top left = .ok d → Reachable tanh d
  /-- The state after (or at the exit from) generate_grid. -/
  | generated (d : Domain α) (nX nY : Int) :
      Reachable tanh d → Reachable tanh (generate_grid tanh d nX nY).2
  /-- The state of a copy. -/
  | copied (d : Domain α) :
      Reachable tanh d → Reachable tanh (Domain.copy d).1
  /-- The state of the target after an assignment from another object. -/
  | assigned (a b : Domain α) :
      Reachable tanh a → Reachable tanh b → Reachable tanh (Domain.assign a b false).1
  /-- The state after an assignment of the object to itself. -/
  | selfAssigned (a : Domain α) :
      Reachable tanh a → Reachable tanh (Domain.assign a a true).1
  /-- The state after (or at the exit from) print_grid. -/
  | printed (d : Domain α) :
      Reachable tanh d → Reachable tanh (print_grid d).2

end Reachability

section Accesses

/-- The heap blocks of generate_grid and print_grid. -/
inductive Block where
  /-- Member x_, of (nx+1)·(ny+1) cells. -/
  | x_
  /-- Member y_, of (nx+1)·(ny+1) cells. -/
  | y_
  /-- Local botPts, of nx+1 cells. -/
  | botPts
  /-- Local topPts, of nx+1 cells. -/
  | topPts
  /-- Local leftPts, of ny+1 cells. -/
  | leftPts
  /-- Local rightPts, of ny+1 cells. -/
  | rightPts
  deriving DecidableEq

/-- One subscript expression met while running: the block, the index, and
whether the cell is written (true) or read (false). -/
structure Access where
  /-- The block subscripted. -/
  block : Block
  /-- The value of the index expression. -/
  index : Int
  /-- Whether the access is a store. -/
  write : Bool
  deriving DecidableEq

/-- The number of cells of each block as allocated at Domain.cpp:132-133 and
143-146. -/
def blockSize (nx ny : Int) : Block → Int
  | .x_ => (nx + 1) * (ny + 1)
  | .y_ => (nx + 1) * (ny + 1)
  | .botPts => nx + 1
  | .topPts => nx + 1
  | .leftPts => ny + 1
  | .rightPts => ny + 1

/-- The subscript expressions of generate_grid (Domain.cpp:149-193) in the order
in which a call with accepted sizes nx, ny meets them. -/
def generate_grid_accesses (nx ny : Int) : List Access :=
  -- Points of the lower and upper boundaries
  (List.range (nx + 1).toNat).flatMap (fun i =>
    [⟨.botPts, i, true⟩, ⟨.topPts, i, true⟩])
  -- Points of the left and right boundaries
  ++ (List.range (ny + 1).toNat).flatMap (fun i =>
    [⟨.leftPts, i, true⟩, ⟨.rightPts, i, true⟩])
  -- Transfinite grid interpolation
  ++ (List.range (ny + 1).toNat).flatMap (fun j =>
    (List.range (nx + 1).toNat).flatMap (fun i =>
      [⟨.leftPts, j, false⟩, ⟨.rightPts, j, false⟩, ⟨.botPts, i, false⟩,
       ⟨.topPts, i, false⟩, ⟨.botPts, 0, false⟩, ⟨.rightPts, 0, false⟩,
       ⟨.botPts, 0, false⟩, ⟨.rightPts, 0, false⟩,
       ⟨.x_, (j : Int) * (nx + 1) + (i : Int), true⟩,
       ⟨.leftPts, j, false⟩, ⟨.rightPts, j, false⟩, ⟨.botPts, i, false⟩,
       ⟨.topPts, i, false⟩, ⟨.leftPts, 0, false⟩, ⟨.leftPts, 0, false⟩,
       ⟨.topPts, 0, false⟩, ⟨.topPts, 0, false⟩,
       ⟨.y_, (j : Int) * (nx + 1) + (i : Int), true⟩]))

/-- The subscript expressions of print_grid (Domain.cpp:216-218) in the order in
which a call on a domain with sizes nx, ny meets them. -/
def print_grid_accesses (nx ny : Int) : List Access :=
  (List.range (ny + 1).toNat).flatMap (fun j =>
    (List.range (nx + 1).toNat).flatMap (fun i =>
      [⟨.x_, (j : Int) * (nx + 1) + (i : Int), false⟩,
       ⟨.y_, (j : Int) * (nx + 1) + (i : Int), false⟩]))

end Accesses

section Parameters

variable {α : Type} [LinearOrderedField α]

/-- The curve evaluations of generate_grid (Domain.cpp:149-160) in the order in
which a call with accepted sizes nX, nY makes them: the index of the side in
`sides` and the parameter passed to its x(t) or y(t). -/
def generate_grid_parameters (tanh : α → α) (nX nY : Int) : List (Fin 4 × α) :=
  let hx : α := 1 / (nX : α)
  let hy : α := 1 / (nY : α)
  -- Points of the lower and upper boundaries
  (List.range (nX + 1).toNat).flatMap (fun i =>
    let xi := hx * (i : α)
    [(0, xi), (0, xi), (2, xi), (2, xi)])
  -- Points of the left and right boundaries
  ++ (List.range (nY + 1).toNat).flatMap (fun i =>
    let eta := eta tanh hy i
    [(3, eta), (3, eta), (1, eta), (1, eta)])

end Parameters

section Machine

variable {α : Type} [LinearOrderedField α]

/-- The largest value of a 32-bit `int`. -/
def INT_MAX : Int := 2147483647

/-- The value an `int` expression takes on the machine: the mathematical value
reduced into the range from -2^31 to 2^31 - 1 (two's complement, 32 bits). -/
def int32 (z : Int) : Int :=
  (z + 2147483648) % 4294967296 - 2147483648

/-- The ways a call ends without returning: through `exit(EXIT_FAILURE)`, or
through the exception `std::bad_array_new_length` that `new T[n]` throws for a
negative n and that nothing in the program catches. -/
inductive Abort where
  /-- The process left through exit(EXIT_FAILURE). -/
  | exited (f : Failure)
  /-- An array-new expression was given a negative length. -/
  | bad_array_new_length
  deriving DecidableEq

/-- The expression `new T[n]` for an `int` n. -/
def new32 {β : Type} (n : Int) : Except Abort (List (Option β)) :=
  if n < 0 then .error .bad_array_new_length else .ok (newArray n.toNat)

/-- The assignment `a[k] = v` for an `int` k.  A store outside the block, which
C++ leaves undefined, is modelled as leaving the block as it is. -/
def store32 {β : Type} (a : List (Option β)) (k : Int) (v : Option β) :
    List (Option β) :=
  if 0 ≤ k then store a k.toNat v else a

/-- Domain.cpp:116-201, `Domain::generate_grid`, with every `int` expression
evaluated on 32 bits: the same statements as `generate_grid`, where the sums and
products `nx + 1`, `ny + 1`, `(nx + 1) * (ny + 1)` and `j * (nx + 1) + i` wrap
around and an array-new expression with a negative length throws. -/
def generate_grid32 (tanh : α → α) (d : Domain α) (nX nY : Int) :
    Except Abort Unit × Domain α :=
  -- Check on user input
  if nX ≤ 0 ∨ nY ≤ 0 then
    (.error (.exited .invalidGridSizes), d)
  else
    -- Set sizes and allocate memory (the old blocks, if any, are released)
    let nx : Int := nX
    let ny : Int := nY
    match new32 (int32 (int32 (nx + 1) * int32 (ny + 1))) with
    | .error e => (.error e, { d with nx := nx, ny := ny })
    | .ok x0 =>
    match new32 (int32 (int32 (nx + 1) * int32 (ny + 1))) with
    | .error e => (.error e, { d with nx := nx, ny := ny, x_ := some x0 })
    | .ok y0 =>
    -- Grid spacings
    let hx : α := 1 / (nx : α)
    let hy : α := 1 / (ny : α)
    -- Arrays for storing the boundary points
    let locals : Except Abort
        (List (Option (Points α)) × List (Option (Points α))
          × List (Option (Points α)) × List (Option (Points α))) := do
      let botPts0 ← new32 (int32 (nx + 1))
      let topPts0 ← new32 (int32 (nx + 1))
      let leftPts0 ← new32 (int32 (ny + 1))
      let rightPts0 ← new32 (int32 (ny + 1))
      pure (botPts0, topPts0, leftPts0, rightPts0)
    match locals with
    | .error e => (.error e, { d with nx := nx, ny := ny, x_ := some x0, y_ := some y0 })
    | .ok (botPts0, topPts0, leftPts0, rightPts0) =>
    -- Points of the lower and upper boundaries
    let bt := (List.range (nx + 1).toNat).foldl
      (fun (s : List (Option (Points α)) × List (Option (Points α))) (i : Nat) =>
        let xi := hx * (i : α)
        (store32 s.1 (i : Int) (some ⟨(d.sides 0).x xi, (d.sides 0).y xi⟩),
         store32 s.2 (i : Int) (some ⟨(d.sides 2).x xi, (d.sides 2).y xi⟩)))
      (botPts0, topPts0)
    let botPts := bt.1
    let topPts := bt.2
    -- Points of the left and right boundaries
    let lr := (List.range (ny + 1).toNat).foldl
      (fun (s : List (Option (Points α)) × List (Option (Points α))) (i : Nat) =>
        let eta := eta tanh hy i
        (store32 s.1 (i : Int) (some ⟨(d.sides 3).x eta, (d.sides 3).y eta⟩),
         store32 s.2 (i : Int) (some ⟨(d.sides 1).x eta, (d.sides 1).y eta⟩)))
      (leftPts0, rightPts0)
    let leftPts := lr.1
    let rightPts := lr.2
    -- Transfinite grid interpolation
    let xy := (List.range (ny + 1).toNat).foldl
      (fun (s : List (Option α) × List (Option α)) (j : Nat) =>
        (List.range (nx + 1).toNat).foldl
          (fun (s : List (Option α) × List (Option α)) (i : Nat) =>
            let xi := hx * (i : α)
            let eta := eta tanh hy j
            let k := int32 (int32 ((j : Int) * int32 (nx + 1)) + (i : Int))
            let vx : Option α := do
              let lj ← load leftPts j
              let rj ← load rightPts j
              let bi ← load botPts i
              let ti ← load topPts i
              let b0 ← load botPts 0
              let r0 ← load rightPts 0
              pure (phi0 xi * lj.x
                + phi1 xi * rj.x
                + phi0 eta * bi.x
                + phi1 eta * ti.x
                - phi0 xi * phi0 eta * b0.x
                - phi1 xi * phi0 eta * r0.x
                - phi0 xi * phi1 eta * b0.x
                - phi1 xi * phi1 eta * r0.x)
            let vy : Option α := do
              let lj ← load leftPts j
              let rj ← load rightPts j
              let bi ← load botPts i
              let ti ← load topPts i
              let l0 ← load leftPts 0
              let t0 ← load topPts 0
              pure (phi0 xi * lj.y
                + phi1 xi * rj.y
                + phi0 eta * bi.y
                + phi1 eta * ti.y
                - phi0 xi * phi0 eta * l0.y
                - phi1 xi * phi0 eta * l0.y
                - phi0 xi * phi1 eta * t0.y
                - phi1 xi * phi1 eta * t0.y)
            (store32 s.1 k vx, store32 s.2 k vy))
          s)
      (x0, y0)
    (.ok (), { d with nx := nx, ny := ny, x_ := some xy.1, y_ := some xy.2 })

end Machine

section Loops

variable {β γ τ : Type}

/-- A loop of stores does not change the size of the block. -/
theorem foldl_store_length (l : List τ) (g : τ → Nat) (v : τ → Option β)
    (a : List (Option β)) :
    (l.foldl (fun a t => store a (g t) (v t)) a).length = a.length := by
  induction l generalizing a with
  | nil => rfl
  | cons t l ih => rw [List.foldl_cons, ih]; simp [store]

/-- After a loop of stores, a cell holds the value w as soon as every store of
the loop into that cell writes w and either the loop stores into the cell or
the cell held w before. -/
theorem foldl_store_getElem? (l : List τ) (g : τ → Nat) (v : τ → Option β)
    (a : List (Option β)) (k : Nat) (w : Option β) (hk : k < a.length)
    (hv : ∀ t ∈ l, g t = k → v t = w)
    (hw : a[k]? = some w ∨ ∃ t ∈ l, g t = k) :
    (l.foldl (fun a t => store a (g t) (v t)) a)[k]? = some w := by
  induction l generalizing a with
  | nil =>
    rcases hw with h | ⟨t, ht, _⟩
    · simpa using h
    · simp at ht
  | cons t0 l ih =>
    rw [List.foldl_cons]
    apply ih
    · simpa [store] using hk
    · intro t ht; exact hv t (List.mem_cons_of_mem _ ht)
    · by_cases h0 : g t0 = k
      · left
        have := hv t0 (List.mem_cons_self _ _) h0
        simp [store, List.getElem?_set, h0, hk, this]
      · rcases hw with h | ⟨t, ht, htk⟩
        · left
          simp [store, List.getElem?_set_ne h0, h]
        · right
          rcases List.mem_cons.1 ht with rfl | ht
          · exact absurd htk h0
          · exact ⟨t, ht, htk⟩

/-- A loop that stores into two blocks side by side is the pair of the two
loops. -/
theorem foldl_store_pair (l : List τ) (g : τ → Nat) (u : τ → Option β)
    (w : τ → Option γ) (a : List (Option β)) (b : List (Option γ)) :
    l.foldl (fun (s : List (Option β) × List (Option γ)) t =>
        (store s.1 (g t) (u t), store s.2 (g t) (w t))) (a, b)
      = (l.foldl (fun a t => store a (g t) (u t)) a,
         l.foldl (fun b t => store b (g t) (w t)) b) := by
  induction l generalizing a b with
  | nil => rfl
  | cons t l ih => simp [List.foldl_cons, ih]

/-- Two nested loops are one loop over the pairs of indices, outer index
first. -/
theorem foldl_nested {σ ι κ : Type} (f : σ → ι → κ → σ) (l₁ : List ι)
    (l₂ : List κ) (s : σ) :
    l₁.foldl (fun s j => l₂.foldl (fun s i => f s j i) s) s
      = (l₁ ×ˢ l₂).foldl (fun s p => f s p.1 p.2) s := by
  induction l₁ generalizing s with
  | nil => rfl
  | cons j l₁ ih =>
    rw [List.foldl_cons, List.product_cons, List.foldl_append, List.foldl_map, ih]

/-- Filling a fresh block of n cells in a loop over 0..n-1. -/
theorem fill_range (n : Nat) (v : Nat → Option β) :
    (List.range n).foldl (fun a i => store a i (v i)) (newArray n)
      = (List.range n).map v := by
  apply List.ext_getElem?
  intro k
  by_cases hk : k < n
  · rw [foldl_store_getElem? (List.range n) (fun i => i) v (newArray n) k (v k)
      (by simpa [newArray] using hk) (by intro t _ h; simp only at h; rw [h])
      (Or.inr ⟨k, List.mem_range.2 hk, rfl⟩)]
    simp [List.getElem?_range hk]
  · rw [List.getElem?_eq_none, List.getElem?_eq_none]
    · simpa using Nat.le_of_not_lt hk
    · rw [foldl_store_length]; simpa [newArray] using Nat.le_of_not_lt hk

/-- Filling a fresh block of n * m cells in two nested loops, the outer over the
row j and the inner over the column i, storing at j * n + i. -/
theorem fill_grid (n m : Nat) (v : Nat × Nat → Option β) :
    (List.range m ×ˢ List.range n).foldl
        (fun a p => store a (p.1 * n + p.2) (v p)) (newArray (n * m))
      = (List.range (n * m)).map (fun k => v (k / n, k % n)) := by
  apply List.ext_getElem?
  intro k
  by_cases hk : k < n * m
  · have hn : 0 < n := by
      rcases Nat.eq_zero_or_pos n with h | h
      · simp [h] at hk
      · exact h
    have hdiv : k / n < m := (Nat.div_lt_iff_lt_mul hn).2 (by rwa [Nat.mul_comm] at hk)
    have hmod : k % n < n := Nat.mod_lt _ hn
    have hidx : k / n * n + k % n = k := by
      rw [Nat.mul_comm]; exact Nat.div_add_mod k n
    rw [foldl_store_getElem? (List.range m ×ˢ List.range n) (fun p => p.1 * n + p.2)
      v (newArray (n * m)) k (v (k / n, k % n))
      (by simpa [newArray] using hk) ?_
      (Or.inr ⟨(k / n, k % n), List.mem_product.2
        ⟨List.mem_range.2 hdiv, List.mem_range.2 hmod⟩, hidx⟩)]
    · simp [List.getElem?_range hk]
    · rintro ⟨j, i⟩ hp h
      have hi : i < n := List.mem_range.1 (List.mem_product.1 hp).2
      simp only at h
      have h1 : k / n = j := by
        rw [← h, Nat.add_comm, Nat.mul_comm, Nat.add_mul_div_left _ _ hn,
          Nat.div_eq_of_lt hi, Nat.zero_add]
      have h2 : k % n = i := by
        rw [← h, Nat.add_comm, Nat.mul_comm, Nat.add_mul_mod_self_left,
          Nat.mod_eq_of_lt hi]
      simp only [h1, h2]
  · rw [List.getElem?_eq_none, List.getElem?_eq_none]
    · simpa using Nat.le_of_not_lt hk
    · rw [foldl_store_length]; simpa [newArray] using Nat.le_of_not_lt hk

/-- Writing one record per element of a list appends the records in order. -/
theorem foldl_append_singleton {β ι : Type} (g : ι → β) (l : List ι) (out : List β) :
    l.foldl (fun out i => out ++ [g i]) out = out ++ l.map g := by
  induction l generalizing out with
  | nil => simp
  | cons i l ih => rw [List.foldl_cons, ih]; simp

/-- Writing m rows of n records each, row after row, yields the n * m records
in row-major order. -/
theorem foldl_rows {β : Type} (n m : Nat) (hn : 0 < n) (f : Nat → Nat → β)
    (out : List β) :
    (List.range m).foldl
        (fun out j => (List.range n).foldl (fun out i => out ++ [f j i]) out) out
      = out ++ (List.range (n * m)).map (fun k => f (k / n) (k % n)) := by
  induction m with
  | zero => simp
  | succ m ih =>
    rw [List.range_succ, List.foldl_append, ih, List.foldl_cons, List.foldl_nil,
      foldl_append_singleton, Nat.mul_succ, List.range_add, List.map_append,
      List.map_map, List.append_assoc]
    congr 2
    apply List.map_congr_left
    intro i hi
    have hi' : i < n := List.mem_range.1 hi
    simp only [Function.comp_apply]
    rw [Nat.mul_add_div hn, Nat.div_eq_of_lt hi', Nat.add_zero, Nat.mul_add_mod,
      Nat.mod_eq_of_lt hi']

end Loops

section Indices

theorem toNat_succ_cast (n : Nat) : ((n : Int) + 1).toNat = n + 1 := by omega

theorem toNat_size_cast (n m : Nat) :
    (((n : Int) + 1) * ((m : Int) + 1)).toNat = (n + 1) * (m + 1) := by
  have h : ((n : Int) + 1) * ((m : Int) + 1) = (((n + 1) * (m + 1) : Nat) : Int) := by
    push_cast; ring
  rw [h, Int.toNat_ofNat]

theorem toNat_index_cast (n j i : Nat) :
    ((j : Int) * ((n : Int) + 1) + (i : Int)).toNat = j * (n + 1) + i := by
  have h : (j : Int) * ((n : Int) + 1) + (i : Int) = ((j * (n + 1) + i : Nat) : Int) := by
    push_cast; ring
  rw [h, Int.toNat_ofNat]

theorem index_mod (n i j : Nat) (hi : i ≤ n) : (j * (n + 1) + i) % (n + 1) = i := by
  rw [Nat.add_comm, Nat.mul_comm, Nat.add_mul_mod_self_left]
  exact Nat.mod_eq_of_lt (Nat.lt_succ_of_le hi)

theorem index_div (n i j : Nat) (hi : i ≤ n) : (j * (n + 1) + i) / (n + 1) = j := by
  rw [Nat.add_comm, Nat.mul_comm, Nat.add_mul_div_left _ _ (Nat.succ_pos n),
    Nat.div_eq_of_lt (Nat.lt_succ_of_le hi), Nat.zero_add]

theorem index_lt (n m i j : Nat) (hi : i ≤ n) (hj : j ≤ m) :
    j * (n + 1) + i < (n + 1) * (m + 1) := by
  have h1 : j * (n + 1) + i < j * (n + 1) + (n + 1) := by omega
  have h2 : j * (n + 1) + (n + 1) = (n + 1) * (j + 1) := by ring
  have h3 : (n + 1) * (j + 1) ≤ (n + 1) * (m + 1) := Nat.mul_le_mul_left _ (by omega)
  omega

theorem load_map_range {β : Type} (n : Nat) (v : Nat → Option β) (k : Nat) (hk : k < n) :
    load ((List.range n).map v) k = v k := by
  simp [load, List.getElem?_range hk]

end Indices

section Generate

variable {α : Type} [LinearOrderedField α]

/-- The state in which generate_grid leaves the domain, in closed form: the
sizes are the requested ones and cell k of either block holds the blend of the
specification at column k mod (nx+1) and row k div (nx+1). -/
theorem generate_grid_eq (tanh : α → α) (d : Domain α) (nx ny : Nat)
    (hnx : 1 ≤ nx) (hny : 1 ≤ ny) :
    generate_grid tanh d (nx : Int) (ny : Int)
      = (.ok (),
         { d with
           nx := (nx : Int)
           ny := (ny : Int)
           x_ := some ((List.range ((nx + 1) * (ny + 1))).map (fun k =>
             some (Spec.x tanh (d.sides 0) (d.sides 1) (d.sides 2) (d.sides 3)
               nx ny (k % (nx + 1)) (k / (nx + 1)))))
           y_ := some ((List.range ((nx + 1) * (ny + 1))).map (fun k =>
             some (Spec.y tanh (d.sides 0) (d.sides 1) (d.sides 2) (d.sides 3)
               nx ny (k % (nx + 1)) (k / (nx + 1))))) }) := by
  have hguard : ¬ ((nx : Int) ≤ 0 ∨ (ny : Int) ≤ 0) := by omega
  unfold generate_grid
  rw [if_neg hguard]
  simp only [toNat_succ_cast, toNat_size_cast, toNat_index_cast]
  rw [foldl_store_pair, foldl_store_pair, fill_range, fill_range, fill_range, fill_range]
  rw [foldl_nested (fun (s : List (Option α) × List (Option α)) j i => _)]
  rw [foldl_store_pair, fill_grid, fill_grid]
  have hcell : ∀ k ∈ List.range ((nx + 1) * (ny + 1)),
      k % (nx + 1) < nx + 1 ∧ k / (nx + 1) < ny + 1 := by
    intro k hk
    have hk' : k < (nx + 1) * (ny + 1) := List.mem_range.1 hk
    refine ⟨Nat.mod_lt _ (Nat.succ_pos nx), ?_⟩
    rw [Nat.div_lt_iff_lt_mul (Nat.succ_pos nx), Nat.mul_comm]
    exact hk'
  congr 3 <;> apply List.map_congr_left <;> intro k hk <;>
    obtain ⟨hi, hj⟩ := hcell k hk
  · simp only [load_map_range _ _ _ hi, load_map_range _ _ _ hj,
      load_map_range _ _ _ (Nat.succ_pos nx), load_map_range _ _ _ (Nat.succ_pos ny)]
    simp only [Option.bind_eq_bind, Option.some_bind, Option.pure_def, Spec.x, Spec.xi, Spec.eta,
      phi0, phi1, eta, Int.cast_natCast, Nat.cast_zero]
    simp only [mul_comm (1 / (nx : α)), mul_comm (1 / (ny : α))]
  · simp only [load_map_range _ _ _ hi, load_map_range _ _ _ hj,
      load_map_range _ _ _ (Nat.succ_pos nx), load_map_range _ _ _ (Nat.succ_pos ny)]
    simp only [Option.bind_eq_bind, Option.some_bind, Option.pure_def, Spec.y, Spec.xi, Spec.eta,
      phi0, phi1, eta, Int.cast_natCast, Nat.cast_zero]
    simp only [mul_comm (1 / (nx : α)), mul_comm (1 / (ny : α))]

/-- The abscissa held at index j*(nx+1)+i after generate_grid. -/
theorem cell_x_generate_grid (tanh : α → α) (d : Domain α) (nx ny : Nat)
    (hnx : 1 ≤ nx) (hny : 1 ≤ ny) (i j : Nat) (hi : i ≤ nx) (hj : j ≤ ny) :
    cell (generate_grid tanh d (nx : Int) (ny : Int)).2.x_ (j * (nx + 1) + i)
      = some (Spec.x tanh (d.sides 0) (d.sides 1) (d.sides 2) (d.sides 3) nx ny i j) := by
  rw [generate_grid_eq tanh d nx ny hnx hny]
  simp only [cell, Option.some_bind]
  rw [load_map_range _ _ _ (index_lt nx ny i j hi hj), index_mod nx i j hi,
    index_div nx i j hi]

/-- The ordinate held at index j*(nx+1)+i after generate_grid. -/
theorem cell_y_generate_grid (tanh : α → α) (d : Domain α) (nx ny : Nat)
    (hnx : 1 ≤ nx) (hny : 1 ≤ ny) (i j : Nat) (hi : i ≤ nx) (hj : j ≤ ny) :
    cell (generate_grid tanh d (nx : Int) (ny : Int)).2.y_ (j * (nx + 1) + i)
      = some (Spec.y tanh (d.sides 0) (d.sides 1) (d.sides 2) (d.sides 3) nx ny i j) := by
  rw [generate_grid_eq tanh d nx ny hnx hny]
  simp only [cell, Option.some_bind]
  rw [load_map_range _ _ _ (index_lt nx ny i j hi hj), index_mod nx i j hi,
    index_div nx i j hi]

/-- The call generate_grid never touches the curve references. -/
theorem generate_grid_sides (tanh : α → α) (d : Domain α) (nX nY : Int) :
    (generate_grid tanh d nX nY).2.sides = d.sides := by
  unfold generate_grid
  split <;> rfl

/-- With positive sizes generate_grid returns normally, stores the sizes and
leaves both pointers non-null. -/
theorem generate_grid_ok (tanh : α → α) (d : Domain α) (nX nY : Int)
    (hX : 1 ≤ nX) (hY : 1 ≤ nY) :
    (generate_grid tanh d nX nY).1 = .ok ()
    ∧ (generate_grid tanh d nX nY).2.nx = nX
    ∧ (generate_grid tanh d nX nY).2.ny = nY
    ∧ (∃ xs, (generate_grid tanh d nX nY).2.x_ = some xs)
    ∧ (∃ ys, (generate_grid tanh d nX nY).2.y_ = some ys) := by
  have hg : ¬ (nX ≤ 0 ∨ nY ≤ 0) := by omega
  unfold generate_grid
  rw [if_neg hg]
  exact ⟨rfl, rfl, rfl, ⟨_, rfl⟩, ⟨_, rfl⟩⟩

end Generate

section Construction

variable {α : Type} [LinearOrderedField α]

/-- The consistency check passes exactly when each of the eight coordinate
differences of the corner table is below SMALL in absolute value. -/
theorem check_consistency_iff (bottom right top left : Curvebase α) :
    check_consistency ![bottom, right, top, left] = true
      ↔ (|left.x 0 - bottom.x 0| < (1e-5 : α) ∧ |left.y 0 - bottom.y 0| < (1e-5 : α))
        ∧ (|bottom.x 1 - right.x 0| < (1e-5 : α) ∧ |bottom.y 1 - right.y 0| < (1e-5 : α))
        ∧ (|right.x 1 - top.x 1| < (1e-5 : α) ∧ |right.y 1 - top.y 1| < (1e-5 : α))
        ∧ (|top.x 0 - left.x 1| < (1e-5 : α) ∧ |top.y 0 - left.y 1| < (1e-5 : α)) := by
  have e0 : (![bottom, right, top, left] : Fin 4 → Curvebase α) 0 = bottom := rfl
  have e1 : (![bottom, right, top, left] : Fin 4 → Curvebase α) 1 = right := rfl
  have e2 : (![bottom, right, top, left] : Fin 4 → Curvebase α) 2 = top := rfl
  have e3 : (![bottom, right, top, left] : Fin 4 → Curvebase α) 3 = left := rfl
  simp only [check_consistency, SMALL, e0, e1, e2, e3, Bool.true_and, Bool.and_eq_true,
    decide_eq_true_eq]
  tauto

/-- The state the constructor returns, when it returns. -/
theorem construct_ok (bottom right top left : Curvebase α) (d : Domain α)
    (h : Domain.construct bottom right top left = .ok d) :
    d = { nx := 0, ny := 0, x_ := none, y_ := none,
          sides := ![bottom, right, top, left] } := by
  simp only [Domain.construct] at h
  split at h
  · cases h
  · cases h; rfl

/-- The unit square passes the consistency check. -/
theorem construct_square :
    Domain.construct (Sample.bottom : Curvebase α) Sample.right Sample.top Sample.left
      = .ok Sample.square := by
  have hc : check_consistency
      ![(Sample.bottom : Curvebase α), Sample.right, Sample.top, Sample.left] = true := by
    rw [check_consistency_iff]
    simp [Sample.bottom, Sample.right, Sample.top, Sample.left]
    norm_num
  simp [Domain.construct, hc, Sample.square]

end Construction

section Export

/-- The file written by print_grid from a domain with both blocks in place, in
closed form. -/
theorem print_grid_eq {α : Type} (d : Domain α) (nx ny : Nat) (xs ys : List (Option α))
    (hnx : d.nx = (nx : Int)) (hny : d.ny = (ny : Int))
    (hx : d.x_ = some xs) (hy : d.y_ = some ys) :
    print_grid d
      = (.ok ((List.range ((nx + 1) * (ny + 1))).map (fun k =>
            (load xs (k / (nx + 1) * (nx + 1) + k % (nx + 1)),
             load ys (k / (nx + 1) * (nx + 1) + k % (nx + 1))))), d) := by
  unfold print_grid
  rw [hx, hy]
  simp only [hnx, hny, toNat_succ_cast, toNat_index_cast]
  rw [foldl_rows (nx + 1) (ny + 1) (Nat.succ_pos nx)
    (fun j i => (load xs (j * (nx + 1) + i), load ys (j * (nx + 1) + i)))]
  simp

end Export

section Tanh

theorem tanh_sub_tanh (x y : ℝ) :
    Real.tanh x - Real.tanh y = Real.sinh (x - y) / (Real.cosh x * Real.cosh y) := by
  have hx : Real.cosh x ≠ 0 := (Real.cosh_pos x).ne'
  have hy : Real.cosh y ≠ 0 := (Real.cosh_pos y).ne'
  rw [Real.tanh_eq_sinh_div_cosh, Real.tanh_eq_sinh_div_cosh, Real.sinh_sub]
  field_simp

theorem tanh_lt_tanh {x y : ℝ} (h : x < y) : Real.tanh x < Real.tanh y := by
  have hpos : 0 < Real.tanh y - Real.tanh x := by
    rw [tanh_sub_tanh]
    exact div_pos (Real.sinh_pos_iff.2 (sub_pos.2 h))
      (mul_pos (Real.cosh_pos y) (Real.cosh_pos x))
  linarith

theorem tanh_pos {x : ℝ} (h : 0 < x) : 0 < Real.tanh x := by
  have := tanh_lt_tanh h
  rwa [Real.tanh_zero] at this

/-- The hyperbolic tangent flattens out: over a step of length b it rises by
less from a > 0 than it does from 0. -/
theorem tanh_gap {a b : ℝ} (ha : 0 < a) (hb : 0 < b) :
    Real.tanh (a + b) - Real.tanh a < Real.tanh b := by
  have hsb : 0 < Real.sinh b := Real.sinh_pos_iff.2 hb
  have hcb : 0 < Real.cosh b := Real.cosh_pos b
  have hca : 1 ≤ Real.cosh a := Real.one_le_cosh a
  have hcab : Real.cosh b < Real.cosh (a + b) := by
    rw [Real.cosh_lt_cosh, abs_of_pos hb, abs_of_pos (add_pos ha hb)]
    linarith
  have hprod : Real.cosh b < Real.cosh (a + b) * Real.cosh a := by nlinarith
  rw [tanh_sub_tanh, add_sub_cancel_left, Real.tanh_eq_sinh_div_cosh b]
  exact div_lt_div_of_pos_left hsb hcb hprod

theorem eta_zero (hy : ℝ) : eta Real.tanh hy 0 = 0 := by
  have h3 : Real.tanh 3 ≠ 0 := (tanh_pos (by norm_num)).ne'
  have : (3 : ℝ) * (hy * ((0 : Nat) : ℝ) - 1) = -3 := by push_cast; ring
  rw [eta, this, Real.tanh_neg, neg_div, div_self h3]
  ring

theorem eta_last (ny : Nat) (hny : 1 ≤ ny) : eta Real.tanh (1 / (ny : ℝ)) ny = 1 := by
  have hne : (ny : ℝ) ≠ 0 := by exact_mod_cast (by omega : ny ≠ 0)
  have : (3 : ℝ) * (1 / (ny : ℝ) * (ny : ℝ) - 1) = 0 := by field_simp
  rw [eta, this, Real.tanh_zero, zero_div, add_zero]

theorem eta_lt_eta {hy : ℝ} (hpos : 0 < hy) {j k : Nat} (hjk : j < k) :
    eta Real.tanh hy j < eta Real.tanh hy k := by
  have h3 : 0 < Real.tanh 3 := tanh_pos (by norm_num)
  have hc : (j : ℝ) < (k : ℝ) := by exact_mod_cast hjk
  have harg : 3 * (hy * (j : ℝ) - 1) < 3 * (hy * (k : ℝ) - 1) := by nlinarith
  unfold eta
  have := div_lt_div_of_pos_right (tanh_lt_tanh harg) h3
  linarith

/-- The first gap of the clustered parameters is smaller than the last one as
soon as there are at least two intervals. -/
theorem eta_first_gap_lt_last_gap (ny : Nat) (hny : 2 ≤ ny) :
    eta Real.tanh (1 / (ny : ℝ)) 1 - eta Real.tanh (1 / (ny : ℝ)) 0
      < eta Real.tanh (1 / (ny : ℝ)) ny - eta Real.tanh (1 / (ny : ℝ)) (ny - 1) := by
  obtain ⟨m, rfl⟩ : ∃ m, ny = m + 1 := ⟨ny - 1, by omega⟩
  have hm : 1 ≤ m := by omega
  have h3 : 0 < Real.tanh 3 := tanh_pos (by norm_num)
  have hN : (0 : ℝ) < ((m + 1 : Nat) : ℝ) := by exact_mod_cast Nat.succ_pos m
  have hm' : (1 : ℝ) ≤ (m : ℝ) := by exact_mod_cast hm
  set h : ℝ := 3 / ((m + 1 : Nat) : ℝ) with hh
  have hpos : 0 < h := div_pos (by norm_num) hN
  have hlt : h < 3 := by
    rw [hh, div_lt_iff₀ hN]; push_cast; nlinarith
  have e0 : (3 : ℝ) * (1 / ((m + 1 : Nat) : ℝ) * ((0 : Nat) : ℝ) - 1) = -3 := by
    push_cast; ring
  have e1 : (3 : ℝ) * (1 / ((m + 1 : Nat) : ℝ) * ((1 : Nat) : ℝ) - 1) = -(3 - h) := by
    rw [hh]; push_cast; ring
  have eN : (3 : ℝ) * (1 / ((m + 1 : Nat) : ℝ) * ((m + 1 : Nat) : ℝ) - 1) = 0 := by
    field_simp
  have eP : (3 : ℝ) * (1 / ((m + 1 : Nat) : ℝ) * ((m + 1 - 1 : Nat) : ℝ) - 1) = -h := by
    rw [hh, Nat.add_sub_cancel]; push_cast; field_simp
  have key := tanh_gap (sub_pos.2 hlt) hpos
  rw [sub_add_cancel] at key
  unfold eta
  rw [e0, e1, eN, eP, Real.tanh_neg, Real.tanh_neg, Real.tanh_neg, Real.tanh_zero]
  have : (1 + -Real.tanh (3 - h) / Real.tanh 3 - (1 + -Real.tanh 3 / Real.tanh 3))
      = (Real.tanh 3 - Real.tanh (3 - h)) / Real.tanh 3 := by ring
  rw [this]
  have : (1 + 0 / Real.tanh 3 - (1 + -Real.tanh h / Real.tanh 3))
      = Real.tanh h / Real.tanh 3 := by ring
  rw [this]
  exact div_lt_div_of_pos_right key h3

end Tanh

section Boundary

theorem spec_eta_eq {α : Type} [LinearOrderedField α] (tanh : α → α) (ny j : Nat) :
    Spec.eta tanh ny j = eta tanh (1 / (ny : α)) j := by
  simp only [Spec.eta, eta, mul_comm (1 / (ny : α))]

theorem spec_xi_zero {α : Type} [LinearOrderedField α] (nx : Nat) :
    (Spec.xi nx 0 : α) = 0 := by
  simp [Spec.xi]

theorem spec_xi_last {α : Type} [LinearOrderedField α] (nx : Nat) (hnx : 1 ≤ nx) :
    (Spec.xi nx nx : α) = 1 := by
  have hne : (nx : α) ≠ 0 := by exact_mod_cast (by omega : nx ≠ 0)
  simp only [Spec.xi]
  field_simp

theorem spec_eta_zero (ny : Nat) : Spec.eta Real.tanh ny 0 = 0 := by
  rw [spec_eta_eq, eta_zero]

theorem spec_eta_last (ny : Nat) (hny : 1 ≤ ny) : Spec.eta Real.tanh ny ny = 1 := by
  rw [spec_eta_eq, eta_last ny hny]

/-- After generate_grid, reproducing the boundary is a statement about the
blend on the four edges of the index rectangle. -/
theorem reproduces_generate_grid_iff {α : Type} [LinearOrderedField α] (tanh : α → α)
    (d : Domain α) (bottom right top left : Curvebase α)
    (hs : d.sides = ![bottom, right, top, left])
    (nx ny : Nat) (hnx : 1 ≤ nx) (hny : 1 ≤ ny) :
    ReproducesBoundary tanh (generate_grid tanh d (nx : Int) (ny : Int)).2
        bottom right top left nx ny
      ↔ (∀ i, i ≤ nx →
          Spec.x tanh bottom right top left nx ny i 0 = bottom.x (Spec.xi nx i)
          ∧ Spec.y tanh bottom right top left nx ny i 0 = bottom.y (Spec.xi nx i)
          ∧ Spec.x tanh bottom right top left nx ny i ny = top.x (Spec.xi nx i)
          ∧ Spec.y tanh bottom right top left nx ny i ny = top.y (Spec.xi nx i))
        ∧ (∀ j, j ≤ ny →
          Spec.x tanh bottom right top left nx ny 0 j = left.x (Spec.eta tanh ny j)
          ∧ Spec.y tanh bottom right top left nx ny 0 j = left.y (Spec.eta tanh ny j)
          ∧ Spec.x tanh bottom right top left nx ny nx j = right.x (Spec.eta tanh ny j)
          ∧ Spec.y tanh bottom right top left nx ny nx j
              = right.y (Spec.eta tanh ny j)) := by
  have h0 : d.sides 0 = bottom := by rw [hs]; rfl
  have h1 : d.sides 1 = right := by rw [hs]; rfl
  have h2 : d.sides 2 = top := by rw [hs]; rfl
  have h3 : d.sides 3 = left := by rw [hs]; rfl
  unfold ReproducesBoundary
  refine and_congr (forall_congr' fun i => imp_congr_right fun hi => ?_)
    (forall_congr' fun j => imp_congr_right fun hj => ?_)
  · rw [cell_x_generate_grid tanh d nx ny hnx hny i 0 hi (Nat.zero_le _),
      cell_y_generate_grid tanh d nx ny hnx hny i 0 hi (Nat.zero_le _),
      cell_x_generate_grid tanh d nx ny hnx hny i ny hi (Nat.le_refl _),
      cell_y_generate_grid tanh d nx ny hnx hny i ny hi (Nat.le_refl _)]
    simp only [Option.some.injEq, h0, h1, h2, h3]
  · rw [cell_x_generate_grid tanh d nx ny hnx hny 0 j (Nat.zero_le _) hj,
      cell_y_generate_grid tanh d nx ny hnx hny 0 j (Nat.zero_le _) hj,
      cell_x_generate_grid tanh d nx ny hnx hny nx j (Nat.le_refl _) hj,
      cell_y_generate_grid tanh d nx ny hnx hny nx j (Nat.le_refl _) hj]
    simp only [Option.some.injEq, h0, h1, h2, h3]

end Boundary

section Edges

variable (bottom right top left : Curvebase ℝ)

/-- Row 0 of the blend: the abscissa is that of the bottom curve. -/
theorem spec_x_bottom_row (hc : CornersMeet bottom right top left) (nx ny i : Nat) :
    Spec.x Real.tanh bottom right top left nx ny i 0 = bottom.x (Spec.xi nx i) := by
  obtain ⟨⟨h1, -⟩, -⟩ := hc
  simp only [Spec.x, spec_eta_zero, spec_xi_zero]
  linear_combination (1 - Spec.xi nx i) * h1

/-- Row 0 of the blend: the ordinate is off the bottom curve by ξ times the
rise of the bottom side. -/
theorem spec_y_bottom_row (hc : CornersMeet bottom right top left) (nx ny i : Nat) :
    Spec.y Real.tanh bottom right top left nx ny i 0
      = bottom.y (Spec.xi nx i) + Spec.xi nx i * (bottom.y 1 - bottom.y 0) := by
  obtain ⟨⟨-, h1⟩, ⟨-, h2⟩, -⟩ := hc
  simp only [Spec.y, spec_eta_zero, spec_xi_zero]
  linear_combination (-Spec.xi nx i) * h1 - Spec.xi nx i * h2

/-- Row ny of the blend: the abscissa is off the top curve by the drifts of the
left and right sides. -/
theorem spec_x_top_row (hc : CornersMeet bottom right top left) (nx ny i : Nat)
    (hny : 1 ≤ ny) :
    Spec.x Real.tanh bottom right top left nx ny i ny
      = top.x (Spec.xi nx i) + (1 - Spec.xi nx i) * (left.x 1 - left.x 0)
        + Spec.xi nx i * (right.x 1 - right.x 0) := by
  obtain ⟨⟨h1, -⟩, -⟩ := hc
  simp only [Spec.x, spec_eta_zero, spec_eta_last ny hny, spec_xi_zero]
  linear_combination (1 - Spec.xi nx i) * h1

/-- Row ny of the blend: the ordinate is off the top curve by ξ times the rise
of the top side. -/
theorem spec_y_top_row (hc : CornersMeet bottom right top left) (nx ny i : Nat)
    (hny : 1 ≤ ny) :
    Spec.y Real.tanh bottom right top left nx ny i ny
      = top.y (Spec.xi nx i) + Spec.xi nx i * (top.y 1 - top.y 0) := by
  obtain ⟨-, -, ⟨-, h3⟩, ⟨-, h4⟩⟩ := hc
  simp only [Spec.y, spec_eta_zero, spec_eta_last ny hny, spec_xi_zero]
  linear_combination Spec.xi nx i * h3 + (1 - Spec.xi nx i) * (-h4)

/-- Column 0 of the blend: the abscissa is off the left curve by η times the
drift of the left side. -/
theorem spec_x_left_column (hc : CornersMeet bottom right top left) (nx ny j : Nat) :
    Spec.x Real.tanh bottom right top left nx ny 0 j
      = left.x (Spec.eta Real.tanh ny j)
        + Spec.eta Real.tanh ny j * (left.x 1 - left.x 0) := by
  obtain ⟨⟨h1, -⟩, -, -, ⟨h4, -⟩⟩ := hc
  simp only [Spec.x, spec_eta_zero, spec_xi_zero]
  linear_combination Spec.eta Real.tanh ny j * h4 + Spec.eta Real.tanh ny j * h1

/-- Column 0 of the blend: the ordinate is that of the left curve. -/
theorem spec_y_left_column (hc : CornersMeet bottom right top left) (nx ny j : Nat) :
    Spec.y Real.tanh bottom right top left nx ny 0 j
      = left.y (Spec.eta Real.tanh ny j) := by
  obtain ⟨⟨-, h1⟩, -⟩ := hc
  simp only [Spec.y, spec_eta_zero, spec_xi_zero]
  linear_combination (Spec.eta Real.tanh ny j - 1) * h1

/-- Column nx of the blend: the abscissa is off the right curve by η times the
drift of the right side. -/
theorem spec_x_right_column (hc : CornersMeet bottom right top left) (nx ny j : Nat)
    (hnx : 1 ≤ nx) :
    Spec.x Real.tanh bottom right top left nx ny nx j
      = right.x (Spec.eta Real.tanh ny j)
        + Spec.eta Real.tanh ny j * (right.x 1 - right.x 0) := by
  obtain ⟨-, ⟨h2, -⟩, ⟨h3, -⟩, -⟩ := hc
  simp only [Spec.x, spec_eta_zero, spec_xi_zero, spec_xi_last nx hnx]
  linear_combination (1 - Spec.eta Real.tanh ny j) * h2 - Spec.eta Real.tanh ny j * h3

/-- Column nx of the blend: the ordinate is off the right curve by the rises of
the bottom and top sides. -/
theorem spec_y_right_column (hc : CornersMeet bottom right top left) (nx ny j : Nat)
    (hnx : 1 ≤ nx) :
    Spec.y Real.tanh bottom right top left nx ny nx j
      = right.y (Spec.eta Real.tanh ny j)
        + (1 - Spec.eta Real.tanh ny j) * (bottom.y 1 - bottom.y 0)
        + Spec.eta Real.tanh ny j * (top.y 1 - top.y 0) := by
  obtain ⟨⟨-, h1⟩, -, -, -⟩ := hc
  simp only [Spec.y, spec_eta_zero, spec_xi_zero, spec_xi_last nx hnx]
  linear_combination (Spec.eta Real.tanh ny j - 1) * h1

end Edges

section Blend

variable {α : Type} [LinearOrderedField α]

end Blend

section BoundaryReproduction

/-- Counterexample to C2 as stated: the trapezium with corners (0,0), (1,0),
(2,1), (0,1) has sides that meet exactly at the corners, yet the grid of
generate_grid(1, 1) does not reproduce its boundary: grid point (1, 1), held at
index 1·(1+1)+1, gets the abscissa 3 where the top curve, and the right curve,
end at abscissa 2. -/
theorem trapezium_boundary_not_reproduced :
    CornersMeet (Sample.bottom : Curvebase ℝ) Sample.slantRight Sample.longTop Sample.left
    ∧ cell (generate_grid Real.tanh (Sample.trapezium : Domain ℝ) ((1 : Nat) : Int)
          ((1 : Nat) : Int)).2.x_ (1 * (1 + 1) + 1) = some 3
    ∧ (Sample.longTop : Curvebase ℝ).x (Spec.xi 1 1) = 2
    ∧ ¬ ReproducesBoundary Real.tanh
        (generate_grid Real.tanh (Sample.trapezium : Domain ℝ) ((1 : Nat) : Int)
          ((1 : Nat) : Int)).2
        Sample.bottom Sample.slantRight Sample.longTop Sample.left 1 1 := by
  have hc : CornersMeet (Sample.bottom : Curvebase ℝ) Sample.slantRight Sample.longTop
      Sample.left := by
    simp [CornersMeet, Sample.bottom, Sample.slantRight, Sample.longTop, Sample.left]
    norm_num
  have hx : Spec.x Real.tanh (Sample.bottom : Curvebase ℝ) Sample.slantRight
      Sample.longTop Sample.left 1 1 1 1 = 3 := by
    rw [spec_x_top_row _ _ _ _ hc 1 1 1 (Nat.le_refl _), spec_xi_last 1 (Nat.le_refl _)]
    simp [Sample.slantRight, Sample.longTop, Sample.left]
    norm_num
  have ht : (Sample.longTop : Curvebase ℝ).x (Spec.xi 1 1) = 2 := by
    rw [spec_xi_last 1 (Nat.le_refl _)]
    simp [Sample.longTop]
  refine ⟨hc, ?_, ht, fun h => ?_⟩
  · rw [cell_x_generate_grid Real.tanh Sample.trapezium 1 1 (Nat.le_refl _)
      (Nat.le_refl _) 1 1 (Nat.le_refl _) (Nat.le_refl _)]
    exact congrArg some hx
  · rw [reproduces_generate_grid_iff Real.tanh Sample.trapezium Sample.bottom
      Sample.slantRight Sample.longTop Sample.left rfl 1 1 (Nat.le_refl _)
      (Nat.le_refl _)] at h
    have h3 := (h.1 1 (Nat.le_refl _)).2.2.1
    rw [hx, ht] at h3
    norm_num at h3

/-- C2, amended. For every four curves whose corners meet exactly and all
nx ≥ 1, ny ≥ 1 (arithmetic over the reals), the grid produced by
generate_grid(nx, ny) reproduces the boundary samples (row 0 is bottom(ξ_i),
row ny is top(ξ_i), column 0 is left(η_j), column nx is right(η_j), in both
coordinates) if and only if the corners span an axis-aligned rectangle: the
ends of the left side share their abscissa, so do the ends of the right side,
and the ends of the bottom side share their ordinate, so do the ends of the top
side. -/
theorem generate_grid_reproduces_boundary_iff_rectangular (d : Domain ℝ)
    (bottom right top left : Curvebase ℝ)
    (hs : d.sides = ![bottom, right, top, left])
    (hc : CornersMeet bottom right top left)
    (nx ny : Nat) (hnx : 1 ≤ nx) (hny : 1 ≤ ny) :
    ReproducesBoundary Real.tanh (generate_grid Real.tanh d (nx : Int) (ny : Int)).2
        bottom right top left nx ny
      ↔ RectangularCorners bottom right top left := by
  rw [reproduces_generate_grid_iff Real.tanh d bottom right top left hs nx ny hnx hny]
  constructor
  · rintro ⟨hrow, hcol⟩
    obtain ⟨-, hb, -, ht⟩ := hrow nx (Nat.le_refl _)
    obtain ⟨hl, -, hr, -⟩ := hcol ny (Nat.le_refl _)
    rw [spec_y_bottom_row _ _ _ _ hc, spec_xi_last nx hnx] at hb
    rw [spec_y_top_row _ _ _ _ hc _ _ _ hny, spec_xi_last nx hnx] at ht
    rw [spec_x_left_column _ _ _ _ hc, spec_eta_last ny hny] at hl
    rw [spec_x_right_column _ _ _ _ hc _ _ _ hnx, spec_eta_last ny hny] at hr
    exact ⟨by linarith, by linarith, by linarith, by linarith⟩
  · rintro ⟨hl, hr, hb, ht⟩
    refine ⟨fun i _ => ⟨?_, ?_, ?_, ?_⟩, fun j _ => ⟨?_, ?_, ?_, ?_⟩⟩
    · rw [spec_x_bottom_row _ _ _ _ hc]
    · rw [spec_y_bottom_row _ _ _ _ hc, hb]; ring
    · rw [spec_x_top_row _ _ _ _ hc _ _ _ hny, hl, hr]; ring
    · rw [spec_y_top_row _ _ _ _ hc _ _ _ hny, ht]; ring
    · rw [spec_x_left_column _ _ _ _ hc, hl]; ring
    · rw [spec_y_left_column _ _ _ _ hc]
    · rw [spec_x_right_column _ _ _ _ hc _ _ _ hnx, hr]; ring
    · rw [spec_y_right_column _ _ _ _ hc _ _ _ hnx, hb, ht]; ring

/-- Witness for C2, amended: the unit square with a 2 by 2 division. -/
theorem generate_grid_reproduces_boundary_iff_rectangular_witness :
    (Sample.square : Domain ℝ).sides
        = ![Sample.bottom, Sample.right, Sample.top, Sample.left]
    ∧ CornersMeet (Sample.bottom : Curvebase ℝ) Sample.right Sample.top Sample.left
    ∧ 1 ≤ 2 ∧ 1 ≤ 2
    ∧ (ReproducesBoundary Real.tanh
          (generate_grid Real.tanh (Sample.square : Domain ℝ) ((2 : Nat) : Int)
            ((2 : Nat) : Int)).2
          Sample.bottom Sample.right Sample.top Sample.left 2 2
        ↔ RectangularCorners (Sample.bottom : Curvebase ℝ) Sample.right Sample.top
            Sample.left) :=
  ⟨rfl, by simp [CornersMeet, Sample.bottom, Sample.right, Sample.top, Sample.left],
    by decide, by decide,
    generate_grid_reproduces_boundary_iff_rectangular Sample.square Sample.bottom
      Sample.right Sample.top Sample.left rfl
      (by simp [CornersMeet, Sample.bottom, Sample.right, Sample.top, Sample.left])
      2 2 (by decide) (by decide)⟩

end BoundaryReproduction

section CornerTable

variable {α : Type} [LinearOrderedField α]

/-- C3. Construction is decided by the corner table (lower-left left(0) vs
bottom(0), lower-right bottom(1) vs right(0), upper-right right(1) vs top(1),
upper-left top(0) vs left(1)).  When at every corner both coordinates of the
paired endpoints match within the tolerance 1e-5 (the differences are below
1e-5 in absolute value, which is the comparison of the code), the check
returns true and construction succeeds, leaving the four curves, nx = ny = 0
and no grid.  When one of the eight differences exceeds 1e-5 in absolute
value, construction fails; so it does whenever one difference is not below
1e-5. -/
theorem construct_decided_by_corner_table (bottom right top left : Curvebase α) :
    (((|left.x 0 - bottom.x 0| < (1e-5 : α) ∧ |left.y 0 - bottom.y 0| < (1e-5 : α))
        ∧ (|bottom.x 1 - right.x 0| < (1e-5 : α) ∧ |bottom.y 1 - right.y 0| < (1e-5 : α))
        ∧ (|right.x 1 - top.x 1| < (1e-5 : α) ∧ |right.y 1 - top.y 1| < (1e-5 : α))
        ∧ (|top.x 0 - left.x 1| < (1e-5 : α) ∧ |top.y 0 - left.y 1| < (1e-5 : α))) →
      check_consistency ![bottom, right, top, left] = true
      ∧ Domain.construct bottom right top left
          = .ok { nx := 0, ny := 0, x_ := none, y_ := none,
                  sides := ![bottom, right, top, left] })
    ∧ (((1e-5 : α) < |left.x 0 - bottom.x 0| ∨ (1e-5 : α) < |left.y 0 - bottom.y 0|
        ∨ (1e-5 : α) < |bottom.x 1 - right.x 0| ∨ (1e-5 : α) < |bottom.y 1 - right.y 0|
        ∨ (1e-5 : α) < |right.x 1 - top.x 1| ∨ (1e-5 : α) < |right.y 1 - top.y 1|
        ∨ (1e-5 : α) < |top.x 0 - left.x 1| ∨ (1e-5 : α) < |top.y 0 - left.y 1|) →
      Domain.construct bottom right top left = .error .noValidBoundaryCurves)
    ∧ (¬ ((|left.x 0 - bottom.x 0| < (1e-5 : α) ∧ |left.y 0 - bottom.y 0| < (1e-5 : α))
        ∧ (|bottom.x 1 - right.x 0| < (1e-5 : α) ∧ |bottom.y 1 - right.y 0| < (1e-5 : α))
        ∧ (|right.x 1 - top.x 1| < (1e-5 : α) ∧ |right.y 1 - top.y 1| < (1e-5 : α))
        ∧ (|top.x 0 - left.x 1| < (1e-5 : α) ∧ |top.y 0 - left.y 1| < (1e-5 : α))) →
      Domain.construct bottom right top left = .error .noValidBoundaryCurves) := by
  have hfail : ¬ ((|left.x 0 - bottom.x 0| < (1e-5 : α) ∧ |left.y 0 - bottom.y 0| < (1e-5 : α))
        ∧ (|bottom.x 1 - right.x 0| < (1e-5 : α) ∧ |bottom.y 1 - right.y 0| < (1e-5 : α))
        ∧ (|right.x 1 - top.x 1| < (1e-5 : α) ∧ |right.y 1 - top.y 1| < (1e-5 : α))
        ∧ (|top.x 0 - left.x 1| < (1e-5 : α) ∧ |top.y 0 - left.y 1| < (1e-5 : α))) →
      Domain.construct bottom right top left = .error .noValidBoundaryCurves := by
    intro h
    rw [← check_consistency_iff, Bool.not_eq_true] at h
    simp [Domain.construct, h]
  refine ⟨fun h => ?_, fun h => hfail fun hw => ?_, hfail⟩
  · have hc := (check_consistency_iff bottom right top left).2 h
    exact ⟨hc, by simp [Domain.construct, hc]⟩
  · obtain ⟨⟨a1, a2⟩, ⟨a3, a4⟩, ⟨a5, a6⟩, a7, a8⟩ := hw
    rcases h with h | h | h | h | h | h | h | h
    · exact lt_asymm h a1
    · exact lt_asymm h a2
    · exact lt_asymm h a3
    · exact lt_asymm h a4
    · exact lt_asymm h a5
    · exact lt_asymm h a6
    · exact lt_asymm h a7
    · exact lt_asymm h a8

/-- Witness for C3: the unit square is accepted, and the four curves obtained
from it by taking the slanted side for the left side, which starts one unit
away from the start of the bottom side, are rejected. -/
theorem construct_decided_by_corner_table_witness :
    Domain.construct (Sample.bottom : Curvebase ℚ) Sample.right Sample.top Sample.left
        = .ok Sample.square
    ∧ Domain.construct (Sample.bottom : Curvebase ℚ) Sample.right Sample.top
        Sample.slantRight = .error .noValidBoundaryCurves :=
  ⟨((construct_decided_by_corner_table (Sample.bottom : Curvebase ℚ) Sample.right
        Sample.top Sample.left).1
      (by simp [Sample.bottom, Sample.right, Sample.top, Sample.left]; norm_num)).2,
    (construct_decided_by_corner_table (Sample.bottom : Curvebase ℚ) Sample.right
        Sample.top Sample.slantRight).2.1
      (Or.inl (by simp [Sample.bottom, Sample.slantRight]; norm_num))⟩

end CornerTable

section Clustering

/-- C4. For every ny ≥ 1, the clustered parameters
η_j = 1 + tanh(3·(hy·j − 1))/tanh 3, hy = 1/ny, at which generate_grid samples
the left and right curves satisfy η_0 = 0, η_ny = 1 and η_j < η_(j+1) for every
0 ≤ j < ny (over the reals). -/
theorem eta_fixes_ends_and_increases (ny : Nat) (hny : 1 ≤ ny) :
    eta Real.tanh (1 / (((ny : Int) : ℝ))) 0 = 0
    ∧ eta Real.tanh (1 / (((ny : Int) : ℝ))) ny = 1
    ∧ ∀ j, j < ny →
        eta Real.tanh (1 / (((ny : Int) : ℝ))) j
          < eta Real.tanh (1 / (((ny : Int) : ℝ))) (j + 1) := by
  have hpos : (0 : ℝ) < 1 / (ny : ℝ) :=
    one_div_pos.2 (by exact_mod_cast (by omega : 0 < ny))
  rw [Int.cast_natCast]
  exact ⟨eta_zero _, eta_last ny hny, fun j _ => eta_lt_eta hpos (Nat.lt_succ_self j)⟩

/-- Witness for C4: four intervals. -/
theorem eta_fixes_ends_and_increases_witness :
    1 ≤ 4
    ∧ (eta Real.tanh (1 / ((((4 : Nat) : Int) : ℝ))) 0 = 0
      ∧ eta Real.tanh (1 / ((((4 : Nat) : Int) : ℝ))) 4 = 1
      ∧ ∀ j, j < 4 →
          eta Real.tanh (1 / ((((4 : Nat) : Int) : ℝ))) j
            < eta Real.tanh (1 / ((((4 : Nat) : Int) : ℝ))) (j + 1)) :=
  ⟨by decide, eta_fixes_ends_and_increases 4 (by decide)⟩

/-- Counterexample to C5 as stated: with two intervals the last gap η_2 − η_1
is not smaller than the first gap η_1 − η_0. -/
theorem eta_last_gap_not_smaller :
    2 ≤ 2
    ∧ ¬ (eta Real.tanh (1 / ((((2 : Nat) : Int) : ℝ))) 2
          - eta Real.tanh (1 / ((((2 : Nat) : Int) : ℝ))) (2 - 1)
        < eta Real.tanh (1 / ((((2 : Nat) : Int) : ℝ))) 1
          - eta Real.tanh (1 / ((((2 : Nat) : Int) : ℝ))) 0) := by
  refine ⟨Nat.le_refl _, ?_⟩
  have h := eta_first_gap_lt_last_gap 2 (Nat.le_refl _)
  rw [Int.cast_natCast]
  exact not_lt_of_gt h

/-- C5, amended. The clustering used by generate_grid concentrates the samples
near η = 0: for every ny ≥ 2 the first gap η_1 − η_0 is smaller than the last
gap η_ny − η_(ny−1), where η_j = 1 + tanh(3·(hy·j − 1))/tanh 3 and hy = 1/ny
(over the reals). -/
theorem eta_denser_near_zero (ny : Nat) (hny : 2 ≤ ny) :
    eta Real.tanh (1 / (((ny : Int) : ℝ))) 1 - eta Real.tanh (1 / (((ny : Int) : ℝ))) 0
      < eta Real.tanh (1 / (((ny : Int) : ℝ))) ny
        - eta Real.tanh (1 / (((ny : Int) : ℝ))) (ny - 1) := by
  rw [Int.cast_natCast]
  exact eta_first_gap_lt_last_gap ny hny

/-- Witness for C5, amended: five intervals. -/
theorem eta_denser_near_zero_witness :
    2 ≤ 5
    ∧ eta Real.tanh (1 / ((((5 : Nat) : Int) : ℝ))) 1
        - eta Real.tanh (1 / ((((5 : Nat) : Int) : ℝ))) 0
      < eta Real.tanh (1 / ((((5 : Nat) : Int) : ℝ))) 5
        - eta Real.tanh (1 / ((((5 : Nat) : Int) : ℝ))) (5 - 1) :=
  ⟨by decide, eta_denser_near_zero 5 (by decide)⟩

end Clustering

section Guard

variable {α : Type} [LinearOrderedField α]

/-- C6. For every domain state and every nx ≤ 0 or ny ≤ 0, generate_grid(nx, ny)
rejects the call and the state at the exit is the state before the call (curve
references, nx, ny and both blocks); and for every nx ≥ 1 and ny ≥ 1 the call
is not rejected. -/
theorem generate_grid_rejects_iff_nonpositive (tanh : α → α) (d : Domain α)
    (nX nY : Int) :
    ((nX ≤ 0 ∨ nY ≤ 0) → generate_grid tanh d nX nY = (.error .invalidGridSizes, d))
    ∧ ((1 ≤ nX ∧ 1 ≤ nY) → (generate_grid tanh d nX nY).1 = .ok ()) := by
  constructor
  · intro h
    unfold generate_grid
    rw [if_pos h]
  · intro h
    have hg : ¬ (nX ≤ 0 ∨ nY ≤ 0) := by omega
    unfold generate_grid
    rw [if_neg hg]

/-- Witness for C6: on a domain that already holds a 1 by 1 grid, generate(0, 5)
and generate(-1, 5) are rejected with the state untouched, and generate(2, 3)
is not rejected. -/
theorem generate_grid_rejects_iff_nonpositive_witness :
    generate_grid (fun t => t)
        (generate_grid (fun t => t) (Sample.square : Domain ℚ) 1 1).2 0 5
      = (.error .invalidGridSizes,
          (generate_grid (fun t => t) (Sample.square : Domain ℚ) 1 1).2)
    ∧ generate_grid (fun t => t)
        (generate_grid (fun t => t) (Sample.square : Domain ℚ) 1 1).2 (-1) 5
      = (.error .invalidGridSizes,
          (generate_grid (fun t => t) (Sample.square : Domain ℚ) 1 1).2)
    ∧ (generate_grid (fun t => t)
        (generate_grid (fun t => t) (Sample.square : Domain ℚ) 1 1).2 2 3).1 = .ok () :=
  ⟨(generate_grid_rejects_iff_nonpositive (fun t => t)
      (generate_grid (fun t => t) (Sample.square : Domain ℚ) 1 1).2 0 5).1
      (Or.inl (by decide)),
    (generate_grid_rejects_iff_nonpositive (fun t => t)
      (generate_grid (fun t => t) (Sample.square : Domain ℚ) 1 1).2 (-1) 5).1
      (Or.inl (by decide)),
    (generate_grid_rejects_iff_nonpositive (fun t => t)
      (generate_grid (fun t => t) (Sample.square : Domain ℚ) 1 1).2 2 3).2
      ⟨by decide, by decide⟩⟩

end Guard

section PointCount

variable {α : Type} [LinearOrderedField α]

/-- Over the mathematical integers, generate_grid(nx, ny) with nx ≥ 1, ny ≥ 1
returns normally and leaves the domain holding exactly (nx+1)·(ny+1) points:
the stored sizes are nx and ny, each of the x and y blocks has exactly
(nx+1)·(ny+1) cells, and every cell has been written by the call.  On 32-bit
`int` this holds as long as the count is representable, see
generate_grid32_point_count. -/
theorem generate_grid_point_count (tanh : α → α) (d : Domain α) (nx ny : Nat)
    (hnx : 1 ≤ nx) (hny : 1 ≤ ny) :
    (generate_grid tanh d (nx : Int) (ny : Int)).1 = .ok ()
    ∧ (generate_grid tanh d (nx : Int) (ny : Int)).2.nx = (nx : Int)
    ∧ (generate_grid tanh d (nx : Int) (ny : Int)).2.ny = (ny : Int)
    ∧ ∃ xs ys,
        (generate_grid tanh d (nx : Int) (ny : Int)).2.x_ = some xs
        ∧ (generate_grid tanh d (nx : Int) (ny : Int)).2.y_ = some ys
        ∧ xs.length = (nx + 1) * (ny + 1)
        ∧ ys.length = (nx + 1) * (ny + 1)
        ∧ ∀ k, k < (nx + 1) * (ny + 1) →
            (∃ v, load xs k = some v) ∧ (∃ v, load ys k = some v) := by
  rw [generate_grid_eq tanh d nx ny hnx hny]
  refine ⟨rfl, rfl, rfl, _, _, rfl, rfl, ?_, ?_, ?_⟩
  · simp
  · simp
  · intro k hk
    rw [load_map_range _ _ _ hk, load_map_range _ _ _ hk]
    exact ⟨⟨_, rfl⟩, ⟨_, rfl⟩⟩

/-- An instance: generate_grid(49, 19), the sizes of the main program, on the
unit square. -/
theorem generate_grid_point_count_witness :
    1 ≤ 49 ∧ 1 ≤ 19
    ∧ ((generate_grid (fun t => t) (Sample.square : Domain ℚ) ((49 : Nat) : Int)
          ((19 : Nat) : Int)).1 = .ok ()
      ∧ (generate_grid (fun t => t) (Sample.square : Domain ℚ) ((49 : Nat) : Int)
          ((19 : Nat) : Int)).2.nx = ((49 : Nat) : Int)
      ∧ (generate_grid (fun t => t) (Sample.square : Domain ℚ) ((49 : Nat) : Int)
          ((19 : Nat) : Int)).2.ny = ((19 : Nat) : Int)
      ∧ ∃ xs ys,
          (generate_grid (fun t => t) (Sample.square : Domain ℚ) ((49 : Nat) : Int)
            ((19 : Nat) : Int)).2.x_ = some xs
          ∧ (generate_grid (fun t => t) (Sample.square : Domain ℚ) ((49 : Nat) : Int)
            ((19 : Nat) : Int)).2.y_ = some ys
          ∧ xs.length = (49 + 1) * (19 + 1)
          ∧ ys.length = (49 + 1) * (19 + 1)
          ∧ ∀ k, k < (49 + 1) * (19 + 1) →
              (∃ v, load xs k = some v) ∧ (∃ v, load ys k = some v)) :=
  ⟨by decide, by decide,
    generate_grid_point_count (fun t => t) Sample.square 49 19 (by decide) (by decide)⟩

end PointCount

section ExportFailure

variable {α : Type} [LinearOrderedField α]

/-- C8. Export fails if and only if no grid has been generated: print_grid
exits with the error exactly when one of the two pointers is null, so it fails
on every state without blocks and on the freshly constructed domain, and it
does not fail on the state left by a successful generate_grid(nx, ny) with
nx, ny ≥ 1. -/
theorem print_grid_fails_iff_no_grid (tanh : α → α) (d : Domain α) :
    ((print_grid d).1 = .error .noGridGenerated ↔ (d.x_ = none ∨ d.y_ = none))
    ∧ ((∃ out, (print_grid d).1 = .ok out) ↔ (d.x_ ≠ none ∧ d.y_ ≠ none))
    ∧ ((d.x_ = none ∧ d.y_ = none) → (print_grid d).1 = .error .noGridGenerated)
    ∧ (∀ bottom right top left : Curvebase α,
        Domain.construct bottom right top left = .ok d →
          (print_grid d).1 = .error .noGridGenerated)
    ∧ (∀ nX nY : Int, 1 ≤ nX → 1 ≤ nY →
        ∃ out, (print_grid (generate_grid tanh d nX nY).2).1 = .ok out) := by
  have hnone : ∀ e : Domain α, (e.x_ = none ∨ e.y_ = none) →
      (print_grid e).1 = .error .noGridGenerated := by
    intro e h
    unfold print_grid
    rcases hx : e.x_ with _ | xs <;> rcases hy : e.y_ with _ | ys <;> simp_all
  have hsome : ∀ e : Domain α, (e.x_ ≠ none ∧ e.y_ ≠ none) →
      ∃ out, (print_grid e).1 = .ok out := by
    intro e h
    unfold print_grid
    rcases hx : e.x_ with _ | xs <;> rcases hy : e.y_ with _ | ys <;> simp_all
  refine ⟨⟨fun h => ?_, hnone d⟩, ⟨fun h => ?_, hsome d⟩, fun h => hnone d (Or.inl h.1),
    fun bottom right top left h => ?_, fun nX nY hX hY => ?_⟩
  · by_contra hc
    obtain ⟨out, ho⟩ := hsome d ⟨fun hx => hc (Or.inl hx), fun hy => hc (Or.inr hy)⟩
    rw [ho] at h
    cases h
  · obtain ⟨out, ho⟩ := h
    refine ⟨fun hx => ?_, fun hy => ?_⟩
    · rw [hnone d (Or.inl hx)] at ho; cases ho
    · rw [hnone d (Or.inr hy)] at ho; cases ho
  · rw [construct_ok bottom right top left d h]
    exact hnone _ (Or.inl rfl)
  · obtain ⟨-, -, -, ⟨xs, hx⟩, ⟨ys, hy⟩⟩ := generate_grid_ok tanh d nX nY hX hY
    exact hsome _ ⟨by rw [hx]; simp, by rw [hy]; simp⟩

/-- Witness for C8: the unit square right after construction cannot be
exported, and can be after generate_grid(2, 2). -/
theorem print_grid_fails_iff_no_grid_witness :
    (print_grid (Sample.square : Domain ℚ)).1 = .error .noGridGenerated
    ∧ ∃ out, (print_grid (generate_grid (fun t => t) (Sample.square : Domain ℚ) 2 2).2).1
        = .ok out :=
  ⟨(print_grid_fails_iff_no_grid (fun t => t) (Sample.square : Domain ℚ)).2.2.2.1
      Sample.bottom Sample.right Sample.top Sample.left construct_square,
    (print_grid_fails_iff_no_grid (fun t => t) (Sample.square : Domain ℚ)).2.2.2.2
      2 2 (by decide) (by decide)⟩

end ExportFailure

section RowMajor

/-- C9. For every domain holding a grid of sizes nx, ny, print_grid returns
normally and emits exactly (nx+1)·(ny+1) records, one per grid point, in
row-major order with j outer and i inner: for every k below (nx+1)·(ny+1) the
k-th record is the pair (x, y) held for grid point (i, j), that is at index
j·(nx+1)+i of the two blocks, with j = k div (nx+1) and i = k mod (nx+1); and
the state of the domain after the export is the state before it. -/
theorem print_grid_row_major {α : Type} (d : Domain α) (nx ny : Nat)
    (xs ys : List (Option α))
    (hnx : d.nx = (nx : Int)) (hny : d.ny = (ny : Int))
    (hx : d.x_ = some xs) (hy : d.y_ = some ys) :
    ∃ out, (print_grid d).1 = .ok out
      ∧ (print_grid d).2 = d
      ∧ out.length = (nx + 1) * (ny + 1)
      ∧ ∀ k, k < (nx + 1) * (ny + 1) →
          out[k]? = some
            (cell d.x_ (k / (nx + 1) * (nx + 1) + k % (nx + 1)),
             cell d.y_ (k / (nx + 1) * (nx + 1) + k % (nx + 1))) := by
  rw [print_grid_eq d nx ny xs ys hnx hny hx hy]
  refine ⟨_, rfl, rfl, by simp, ?_⟩
  intro k hk
  rw [List.getElem?_map, List.getElem?_range hk, hx, hy]
  rfl

/-- Witness for C9: the unit square holding its four corners as a 1 by 1
grid. -/
theorem print_grid_row_major_witness :
    (Sample.gridded : Domain ℚ).nx = ((1 : Nat) : Int)
    ∧ (Sample.gridded : Domain ℚ).ny = ((1 : Nat) : Int)
    ∧ ∃ out, (print_grid (Sample.gridded : Domain ℚ)).1 = .ok out
      ∧ (print_grid (Sample.gridded : Domain ℚ)).2 = Sample.gridded
      ∧ out.length = (1 + 1) * (1 + 1)
      ∧ ∀ k, k < (1 + 1) * (1 + 1) →
          out[k]? = some
            (cell (Sample.gridded : Domain ℚ).x_ (k / (1 + 1) * (1 + 1) + k % (1 + 1)),
             cell (Sample.gridded : Domain ℚ).y_ (k / (1 + 1) * (1 + 1) + k % (1 + 1))) :=
  ⟨rfl, rfl, print_grid_row_major Sample.gridded 1 1 _ _ rfl rfl rfl rfl⟩

end RowMajor

section Replace

variable {α : Type} [LinearOrderedField α]

end Replace

section GridCornerLemmas

/-- After generate_grid, grid point (i, j) is the blend of the specification. -/
theorem gridPointIs_generate_grid_iff {α : Type} [LinearOrderedField α] (tanh : α → α)
    (d : Domain α) (bottom right top left : Curvebase α)
    (hs : d.sides = ![bottom, right, top, left])
    (nx ny : Nat) (hnx : 1 ≤ nx) (hny : 1 ≤ ny) (i j : Nat) (hi : i ≤ nx) (hj : j ≤ ny)
    (px py : α) :
    GridPointIs (generate_grid tanh d (nx : Int) (ny : Int)).2 nx i j px py
      ↔ Spec.x tanh bottom right top left nx ny i j = px
        ∧ Spec.y tanh bottom right top left nx ny i j = py := by
  have h0 : d.sides 0 = bottom := by rw [hs]; rfl
  have h1 : d.sides 1 = right := by rw [hs]; rfl
  have h2 : d.sides 2 = top := by rw [hs]; rfl
  have h3 : d.sides 3 = left := by rw [hs]; rfl
  unfold GridPointIs
  rw [cell_x_generate_grid tanh d nx ny hnx hny i j hi hj,
    cell_y_generate_grid tanh d nx ny hnx hny i j hi hj]
  simp only [Option.some.injEq, h0, h1, h2, h3]

/-- The blend at the four corners of the index rectangle, for curves that meet
exactly. -/
theorem spec_corners (bottom right top left : Curvebase ℝ)
    (hc : CornersMeet bottom right top left) (nx ny : Nat) (hnx : 1 ≤ nx) (hny : 1 ≤ ny) :
    (Spec.x Real.tanh bottom right top left nx ny 0 0 = bottom.x 0
      ∧ Spec.y Real.tanh bottom right top left nx ny 0 0 = bottom.y 0)
    ∧ (Spec.x Real.tanh bottom right top left nx ny nx 0 = bottom.x 1
      ∧ Spec.y Real.tanh bottom right top left nx ny nx 0
          = bottom.y 1 + (bottom.y 1 - bottom.y 0))
    ∧ (Spec.x Real.tanh bottom right top left nx ny nx ny
          = top.x 1 + (right.x 1 - right.x 0)
      ∧ Spec.y Real.tanh bottom right top left nx ny nx ny
          = top.y 1 + (top.y 1 - top.y 0))
    ∧ (Spec.x Real.tanh bottom right top left nx ny 0 ny
          = top.x 0 + (left.x 1 - left.x 0)
      ∧ Spec.y Real.tanh bottom right top left nx ny 0 ny = top.y 0) := by
  refine ⟨⟨?_, ?_⟩, ⟨?_, ?_⟩, ⟨?_, ?_⟩, ⟨?_, ?_⟩⟩
  · rw [spec_x_bottom_row _ _ _ _ hc, spec_xi_zero]
  · rw [spec_y_bottom_row _ _ _ _ hc, spec_xi_zero]; ring
  · rw [spec_x_bottom_row _ _ _ _ hc, spec_xi_last nx hnx]
  · rw [spec_y_bottom_row _ _ _ _ hc, spec_xi_last nx hnx]; ring
  · rw [spec_x_top_row _ _ _ _ hc _ _ _ hny, spec_xi_last nx hnx]; ring
  · rw [spec_y_top_row _ _ _ _ hc _ _ _ hny, spec_xi_last nx hnx]; ring
  · rw [spec_x_top_row _ _ _ _ hc _ _ _ hny, spec_xi_zero]; ring
  · rw [spec_y_top_row _ _ _ _ hc _ _ _ hny, spec_xi_zero]; ring

/-- After generate_grid on curves that meet exactly, the four grid corners are
the compared curve evaluations exactly when the corners span an axis-aligned
rectangle. -/
theorem gridCornersMatch_generate_grid_iff (d : Domain ℝ)
    (bottom right top left : Curvebase ℝ)
    (hs : d.sides = ![bottom, right, top, left])
    (hc : CornersMeet bottom right top left)
    (nx ny : Nat) (hnx : 1 ≤ nx) (hny : 1 ≤ ny) :
    GridCornersMatch (generate_grid Real.tanh d (nx : Int) (ny : Int)).2
        bottom right top left nx ny
      ↔ RectangularCorners bottom right top left := by
  obtain ⟨⟨a1, a2⟩, ⟨b1, b2⟩, ⟨c1, c2⟩, ⟨e1, e2⟩⟩ :=
    spec_corners bottom right top left hc nx ny hnx hny
  obtain ⟨⟨h1, h2⟩, ⟨h3, h4⟩, ⟨h5, h6⟩, ⟨h7, h8⟩⟩ := hc
  unfold GridCornersMatch
  simp only [gridPointIs_generate_grid_iff Real.tanh d bottom right top left hs nx ny hnx hny
      0 0 (Nat.zero_le _) (Nat.zero_le _),
    gridPointIs_generate_grid_iff Real.tanh d bottom right top left hs nx ny hnx hny
      nx 0 (Nat.le_refl _) (Nat.zero_le _),
    gridPointIs_generate_grid_iff Real.tanh d bottom right top left hs nx ny hnx hny
      nx ny (Nat.le_refl _) (Nat.le_refl _),
    gridPointIs_generate_grid_iff Real.tanh d bottom right top left hs nx ny hnx hny
      0 ny (Nat.zero_le _) (Nat.le_refl _)]
  rw [a1, a2, b1, b2, c1, c2, e1, e2]
  unfold RectangularCorners
  constructor
  · intro h
    have q1 := h.2.1.1.2
    have q2 := h.2.2.1.1.1
    have q3 := h.2.2.1.2.2
    have q4 := h.2.2.2.1.1
    exact ⟨by linarith, by linarith, by linarith, by linarith⟩
  · rintro ⟨r1, r2, r3, r4⟩
    refine ⟨⟨⟨?_, ?_⟩, ?_, ?_⟩, ⟨⟨?_, ?_⟩, ?_, ?_⟩, ⟨⟨?_, ?_⟩, ?_, ?_⟩,
      ⟨⟨?_, ?_⟩, ?_, ?_⟩⟩ <;> linarith

end GridCornerLemmas

section GridCornerClaims

/-- Counterexample to C11 as stated: the sides of the trapezium with corners
(0,0), (1,0), (2,1), (0,1) meet exactly, yet after generate_grid(2, 2) the
corner point (2, 2) of the 3 by 3 grid, held at index 2·(2+1)+2, has the
abscissa 3 where right(1) and top(1) have the abscissa 2. -/
theorem trapezium_grid_corner_off :
    CornersMeet (Sample.bottom : Curvebase ℝ) Sample.slantRight Sample.longTop Sample.left
    ∧ cell (generate_grid Real.tanh (Sample.trapezium : Domain ℝ) ((2 : Nat) : Int)
          ((2 : Nat) : Int)).2.x_ (2 * (2 + 1) + 2) = some 3
    ∧ (Sample.slantRight : Curvebase ℝ).x 1 = 2
    ∧ (Sample.longTop : Curvebase ℝ).x 1 = 2
    ∧ ¬ GridCornersMatch
        (generate_grid Real.tanh (Sample.trapezium : Domain ℝ) ((2 : Nat) : Int)
          ((2 : Nat) : Int)).2
        Sample.bottom Sample.slantRight Sample.longTop Sample.left 2 2 := by
  have hc : CornersMeet (Sample.bottom : Curvebase ℝ) Sample.slantRight Sample.longTop
      Sample.left := by
    simp [CornersMeet, Sample.bottom, Sample.slantRight, Sample.longTop, Sample.left]
    norm_num
  have hx : Spec.x Real.tanh (Sample.bottom : Curvebase ℝ) Sample.slantRight
      Sample.longTop Sample.left 2 2 2 2 = 3 := by
    rw [(spec_corners _ _ _ _ hc 2 2 (by decide) (by decide)).2.2.1.1]
    simp [Sample.slantRight, Sample.longTop]
    norm_num
  have hr : (Sample.slantRight : Curvebase ℝ).x 1 = 2 := by
    simp [Sample.slantRight]; norm_num
  have ht : (Sample.longTop : Curvebase ℝ).x 1 = 2 := by
    simp [Sample.longTop]
  refine ⟨hc, ?_, hr, ht, fun h => ?_⟩
  · rw [cell_x_generate_grid Real.tanh Sample.trapezium 2 2 (by decide) (by decide) 2 2
      (Nat.le_refl _) (Nat.le_refl _)]
    exact congrArg some hx
  · have h3 := h.2.2.1.1
    rw [gridPointIs_generate_grid_iff Real.tanh Sample.trapezium Sample.bottom
      Sample.slantRight Sample.longTop Sample.left rfl 2 2 (by decide) (by decide) 2 2
      (Nat.le_refl _) (Nat.le_refl _), hx, hr] at h3
    norm_num at h3

/-- C11, amended. For every four curves whose corners match exactly and every
nx, ny ≥ 1 (over the reals), the four corner points of the grid produced by
generate_grid(nx, ny) equal the curve evaluations used in the consistency check
(grid(0, 0) = bottom(0) = left(0), grid(nx, 0) = bottom(1) = right(0),
grid(nx, ny) = right(1) = top(1), grid(0, ny) = top(0) = left(1), in both
coordinates) if and only if the corners span an axis-aligned rectangle, as they
do when the bottom curve runs from (-10, 0) to (5, 0) and the other three sides
close a rectangle over it. -/
theorem generate_grid_corners_match_iff_rectangular (d : Domain ℝ)
    (bottom right top left : Curvebase ℝ)
    (hs : d.sides = ![bottom, right, top, left])
    (hc : CornersMeet bottom right top left)
    (nx ny : Nat) (hnx : 1 ≤ nx) (hny : 1 ≤ ny) :
    GridCornersMatch (generate_grid Real.tanh d (nx : Int) (ny : Int)).2
        bottom right top left nx ny
      ↔ RectangularCorners bottom right top left :=
  gridCornersMatch_generate_grid_iff d bottom right top left hs hc nx ny hnx hny

/-- Witness for C11, amended: generate(2, 2) on the unit square, a 3 by 3
grid. -/
theorem generate_grid_corners_match_iff_rectangular_witness :
    (Sample.square : Domain ℝ).sides
        = ![Sample.bottom, Sample.right, Sample.top, Sample.left]
    ∧ CornersMeet (Sample.bottom : Curvebase ℝ) Sample.right Sample.top Sample.left
    ∧ 1 ≤ 2 ∧ 1 ≤ 2
    ∧ (GridCornersMatch
          (generate_grid Real.tanh (Sample.square : Domain ℝ) ((2 : Nat) : Int)
            ((2 : Nat) : Int)).2
          Sample.bottom Sample.right Sample.top Sample.left 2 2
        ↔ RectangularCorners (Sample.bottom : Curvebase ℝ) Sample.right Sample.top
            Sample.left) :=
  ⟨rfl, by simp [CornersMeet, Sample.bottom, Sample.right, Sample.top, Sample.left],
    by decide, by decide,
    generate_grid_corners_match_iff_rectangular Sample.square Sample.bottom
      Sample.right Sample.top Sample.left rfl
      (by simp [CornersMeet, Sample.bottom, Sample.right, Sample.top, Sample.left])
      2 2 (by decide) (by decide)⟩

end GridCornerClaims

section CopyLemmas

variable {α : Type}

/-- Assignment between objects whose stored sizes agree copies the curve
references and nothing else. -/
theorem assign_of_sizes_eq (a b : Domain α) (h1 : a.nx = b.nx) (h2 : a.ny = b.ny) :
    Domain.assign a b false = ({ a with sides := b.sides }, b) := by
  have hg : ¬ (a.nx ≠ b.nx ∨ a.ny ≠ b.ny) := by
    rintro (h | h)
    · exact h h1
    · exact h h2
  simp only [Domain.assign, Bool.false_eq_true, if_false, if_neg hg]

end CopyLemmas

section ReachabilityLemmas

variable {α : Type} [LinearOrderedField α]

/-- The trapezium passes the consistency check. -/
theorem construct_trapezium :
    Domain.construct (Sample.bottom : Curvebase α) Sample.slantRight Sample.longTop
      Sample.left = .ok Sample.trapezium := by
  have hc : check_consistency
      ![(Sample.bottom : Curvebase α), Sample.slantRight, Sample.longTop, Sample.left]
        = true := by
    rw [check_consistency_iff]
    simp [Sample.bottom, Sample.slantRight, Sample.longTop, Sample.left]
    norm_num
  simp [Domain.construct, hc, Sample.trapezium]

end ReachabilityLemmas

section AssignClaim

/-- C12, the code at a failing input. Both the unit square and the trapezium
are constructed and given a grid by generate_grid(1, 1); the square is then
assigned the trapezium. The assignment returns with the curve references of the
trapezium and the stored sizes 1, 1, but the grid of the square is still in
place: grid point (1, 1), at index 1·(1+1)+1, has the abscissa 1 in the target
where the assigned domain has 3. The contents are copied only inside the branch
taken when the stored sizes differ (Domain.cpp:63-85). -/
theorem assign_keeps_stale_grid :
    Reachable Real.tanh
      (generate_grid Real.tanh (Sample.square : Domain ℝ) ((1 : Nat) : Int)
        ((1 : Nat) : Int)).2
    ∧ Reachable Real.tanh
      (generate_grid Real.tanh (Sample.trapezium : Domain ℝ) ((1 : Nat) : Int)
        ((1 : Nat) : Int)).2
    ∧ (Domain.assign
        (generate_grid Real.tanh (Sample.square : Domain ℝ) ((1 : Nat) : Int)
          ((1 : Nat) : Int)).2
        (generate_grid Real.tanh (Sample.trapezium : Domain ℝ) ((1 : Nat) : Int)
          ((1 : Nat) : Int)).2 false).1.sides
      = ![Sample.bottom, Sample.slantRight, Sample.longTop, Sample.left]
    ∧ cell (Domain.assign
        (generate_grid Real.tanh (Sample.square : Domain ℝ) ((1 : Nat) : Int)
          ((1 : Nat) : Int)).2
        (generate_grid Real.tanh (Sample.trapezium : Domain ℝ) ((1 : Nat) : Int)
          ((1 : Nat) : Int)).2 false).1.x_ (1 * (1 + 1) + 1) = some 1
    ∧ cell (generate_grid Real.tanh (Sample.trapezium : Domain ℝ) ((1 : Nat) : Int)
          ((1 : Nat) : Int)).2.x_ (1 * (1 + 1) + 1) = some 3 := by
  have hcs : CornersMeet (Sample.bottom : Curvebase ℝ) Sample.right Sample.top
      Sample.left := by
    simp [CornersMeet, Sample.bottom, Sample.right, Sample.top, Sample.left]
  have hct : CornersMeet (Sample.bottom : Curvebase ℝ) Sample.slantRight Sample.longTop
      Sample.left := by
    simp [CornersMeet, Sample.bottom, Sample.slantRight, Sample.longTop, Sample.left]
    norm_num
  have hsq : Spec.x Real.tanh (Sample.bottom : Curvebase ℝ) Sample.right
      Sample.top Sample.left 1 1 1 1 = 1 := by
    rw [(spec_corners _ _ _ _ hcs 1 1 (Nat.le_refl _) (Nat.le_refl _)).2.2.1.1]
    simp [Sample.right, Sample.top]
  have htr : Spec.x Real.tanh (Sample.bottom : Curvebase ℝ) Sample.slantRight
      Sample.longTop Sample.left 1 1 1 1 = 3 := by
    rw [(spec_corners _ _ _ _ hct 1 1 (Nat.le_refl _) (Nat.le_refl _)).2.2.1.1]
    simp [Sample.slantRight, Sample.longTop]
    norm_num
  have hsizes := generate_grid_ok Real.tanh (Sample.square : Domain ℝ) ((1 : Nat) : Int)
    ((1 : Nat) : Int) (by decide) (by decide)
  have hsizet := generate_grid_ok Real.tanh (Sample.trapezium : Domain ℝ)
    ((1 : Nat) : Int) ((1 : Nat) : Int) (by decide) (by decide)
  have hassign := assign_of_sizes_eq
    (generate_grid Real.tanh (Sample.square : Domain ℝ) ((1 : Nat) : Int)
      ((1 : Nat) : Int)).2
    (generate_grid Real.tanh (Sample.trapezium : Domain ℝ) ((1 : Nat) : Int)
      ((1 : Nat) : Int)).2
    (by rw [hsizes.2.1, hsizet.2.1]) (by rw [hsizes.2.2.1, hsizet.2.2.1])
  refine ⟨Reachable.generated _ _ _ (Reachable.constructed _ _ _ _ _ construct_square),
    Reachable.generated _ _ _ (Reachable.constructed _ _ _ _ _ construct_trapezium),
    ?_, ?_, ?_⟩
  · rw [hassign]
    exact generate_grid_sides Real.tanh Sample.trapezium _ _
  · rw [hassign]
    simp only
    rw [cell_x_generate_grid Real.tanh Sample.square 1 1 (Nat.le_refl _) (Nat.le_refl _)
      1 1 (Nat.le_refl _) (Nat.le_refl _)]
    exact congrArg some hsq
  · rw [cell_x_generate_grid Real.tanh Sample.trapezium 1 1 (Nat.le_refl _)
      (Nat.le_refl _) 1 1 (Nat.le_refl _) (Nat.le_refl _)]
    exact congrArg some htr

end AssignClaim

section CopyClaim

variable {α : Type} [LinearOrderedField α]

end CopyClaim

section InvariantClaim

variable {α : Type} [LinearOrderedField α]

end InvariantClaim

section ParameterClaim

/-- The clustered parameters lie between 0 and 1. -/
theorem eta_mem_unit (ny : Nat) (hny : 1 ≤ ny) (j : Nat) (hj : j ≤ ny) :
    0 ≤ eta Real.tanh (1 / (ny : ℝ)) j ∧ eta Real.tanh (1 / (ny : ℝ)) j ≤ 1 := by
  have hpos : (0 : ℝ) < 1 / (ny : ℝ) :=
    one_div_pos.2 (by exact_mod_cast (by omega : 0 < ny))
  constructor
  · rcases Nat.eq_zero_or_pos j with h | h
    · rw [h, eta_zero]
    · have := eta_lt_eta hpos h
      rw [eta_zero] at this
      exact this.le
  · rcases Nat.lt_or_ge j ny with h | h
    · have := eta_lt_eta hpos h
      rw [eta_last ny hny] at this
      exact this.le
    · have : j = ny := Nat.le_antisymm hj h
      rw [this, eta_last ny hny]

/-- The uniform parameters lie between 0 and 1. -/
theorem xi_mem_unit (nx : Nat) (hnx : 1 ≤ nx) (i : Nat) (hi : i ≤ nx) :
    0 ≤ 1 / (nx : ℝ) * (i : ℝ) ∧ 1 / (nx : ℝ) * (i : ℝ) ≤ 1 := by
  have hpos : (0 : ℝ) < (nx : ℝ) := by exact_mod_cast (by omega : 0 < nx)
  have hi' : (i : ℝ) ≤ (nx : ℝ) := by exact_mod_cast hi
  have h0 : (0 : ℝ) ≤ (i : ℝ) := Nat.cast_nonneg i
  constructor
  · positivity
  · rw [one_div, inv_mul_le_iff₀ hpos]
    linarith

/-- C15. generate_grid only evaluates the boundary curves inside their domain of
definition: for all nx ≥ 1, ny ≥ 1 every parameter it passes to a curve's x(t)
or y(t) lies in [0, 1]; that is, 0 ≤ i·(1/nx) ≤ 1 for every 0 ≤ i ≤ nx and
0 ≤ 1 + tanh(3·(j·(1/ny) − 1))/tanh 3 ≤ 1 for every 0 ≤ j ≤ ny (over the
reals). -/
theorem generate_grid_parameters_in_unit_interval (nx ny : Nat)
    (hnx : 1 ≤ nx) (hny : 1 ≤ ny) :
    (∀ p ∈ generate_grid_parameters Real.tanh (nx : Int) (ny : Int),
        0 ≤ p.2 ∧ p.2 ≤ 1)
    ∧ (∀ i, i ≤ nx → (0 : ℝ) ≤ Spec.xi nx i ∧ (Spec.xi nx i : ℝ) ≤ 1)
    ∧ (∀ j, j ≤ ny → 0 ≤ Spec.eta Real.tanh ny j ∧ Spec.eta Real.tanh ny j ≤ 1) := by
  refine ⟨?_, ?_, ?_⟩
  · intro p hp
    simp only [generate_grid_parameters, toNat_succ_cast, Int.cast_natCast,
      List.mem_append, List.mem_flatMap, List.mem_range] at hp
    rcases hp with ⟨i, hi, hp⟩ | ⟨j, hj, hp⟩
    · have hb := xi_mem_unit nx hnx i (Nat.le_of_lt_succ hi)
      simp only [List.mem_cons, List.mem_singleton, List.not_mem_nil, or_false] at hp
      rcases hp with rfl | rfl | rfl | rfl <;> exact hb
    · have hb := eta_mem_unit ny hny j (Nat.le_of_lt_succ hj)
      simp only [List.mem_cons, List.mem_singleton, List.not_mem_nil, or_false] at hp
      rcases hp with rfl | rfl | rfl | rfl <;> exact hb
  · intro i hi
    have hb := xi_mem_unit nx hnx i hi
    rw [mul_comm] at hb
    exact hb
  · intro j hj
    rw [spec_eta_eq]
    exact eta_mem_unit ny hny j hj

/-- Witness for C15: the sizes 49 and 19 of the main program. -/
theorem generate_grid_parameters_in_unit_interval_witness :
    1 ≤ 49 ∧ 1 ≤ 19
    ∧ ((∀ p ∈ generate_grid_parameters Real.tanh ((49 : Nat) : Int) ((19 : Nat) : Int),
          0 ≤ p.2 ∧ p.2 ≤ 1)
      ∧ (∀ i, i ≤ 49 → (0 : ℝ) ≤ Spec.xi 49 i ∧ (Spec.xi 49 i : ℝ) ≤ 1)
      ∧ (∀ j, j ≤ 19 →
          0 ≤ Spec.eta Real.tanh 19 j ∧ Spec.eta Real.tanh 19 j ≤ 1)) :=
  ⟨by decide, by decide,
    generate_grid_parameters_in_unit_interval 49 19 (by decide) (by decide)⟩

end ParameterClaim

section RectangleLemmas

/-- On curves that meet exactly at the corners of an axis-aligned rectangle the
grid of generate_grid reproduces the four boundaries. -/
theorem reproduces_of_rectangular (d : Domain ℝ) (bottom right top left : Curvebase ℝ)
    (hs : d.sides = ![bottom, right, top, left])
    (hc : CornersMeet bottom right top left)
    (hr : RectangularCorners bottom right top left)
    (nx ny : Nat) (hnx : 1 ≤ nx) (hny : 1 ≤ ny) :
    ReproducesBoundary Real.tanh (generate_grid Real.tanh d (nx : Int) (ny : Int)).2
      bottom right top left nx ny := by
  rw [reproduces_generate_grid_iff Real.tanh d bottom right top left hs nx ny hnx hny]
  obtain ⟨hl, hr, hb, ht⟩ := hr
  refine ⟨fun i _ => ⟨?_, ?_, ?_, ?_⟩, fun j _ => ⟨?_, ?_, ?_, ?_⟩⟩
  · rw [spec_x_bottom_row _ _ _ _ hc]
  · rw [spec_y_bottom_row _ _ _ _ hc, hb]; ring
  · rw [spec_x_top_row _ _ _ _ hc _ _ _ hny, hl, hr]; ring
  · rw [spec_y_top_row _ _ _ _ hc _ _ _ hny, ht]; ring
  · rw [spec_x_left_column _ _ _ _ hc, hl]; ring
  · rw [spec_y_left_column _ _ _ _ hc]
  · rw [spec_x_right_column _ _ _ _ hc _ _ _ hnx, hr]; ring
  · rw [spec_y_right_column _ _ _ _ hc _ _ _ hnx, hb, ht]; ring

end RectangleLemmas

section RectangleClaims

/-- C16. When the four curves meet exactly at corners that form an axis-aligned
rectangle (bottom(0) = left(0) = (x0, y0), bottom(1) = right(0) = (x1, y0),
right(1) = top(1) = (x1, y1), top(0) = left(1) = (x0, y1)), the sides being
otherwise arbitrary curves, then for all nx, ny ≥ 1 the grid produced by
generate_grid reproduces all four boundaries: grid(i, 0) = bottom(ξ_i),
grid(i, ny) = top(ξ_i), grid(0, j) = left(η_j) and grid(nx, j) = right(η_j) for
every i and j, in both coordinates (over the reals). -/
theorem generate_grid_reproduces_rectangle_boundary (d : Domain ℝ)
    (bottom right top left : Curvebase ℝ)
    (hs : d.sides = ![bottom, right, top, left])
    (x0 y0 x1 y1 : ℝ)
    (h00 : (bottom.x 0 = x0 ∧ bottom.y 0 = y0) ∧ (left.x 0 = x0 ∧ left.y 0 = y0))
    (h10 : (bottom.x 1 = x1 ∧ bottom.y 1 = y0) ∧ (right.x 0 = x1 ∧ right.y 0 = y0))
    (h11 : (right.x 1 = x1 ∧ right.y 1 = y1) ∧ (top.x 1 = x1 ∧ top.y 1 = y1))
    (h01 : (top.x 0 = x0 ∧ top.y 0 = y1) ∧ (left.x 1 = x0 ∧ left.y 1 = y1))
    (nx ny : Nat) (hnx : 1 ≤ nx) (hny : 1 ≤ ny) :
    ReproducesBoundary Real.tanh (generate_grid Real.tanh d (nx : Int) (ny : Int)).2
      bottom right top left nx ny := by
  obtain ⟨⟨a1, a2⟩, a3, a4⟩ := h00
  obtain ⟨⟨b1, b2⟩, b3, b4⟩ := h10
  obtain ⟨⟨c1, c2⟩, c3, c4⟩ := h11
  obtain ⟨⟨e1, e2⟩, e3, e4⟩ := h01
  have hc : CornersMeet bottom right top left :=
    ⟨⟨by rw [a3, a1], by rw [a4, a2]⟩, ⟨by rw [b1, b3], by rw [b2, b4]⟩,
      ⟨by rw [c1, c3], by rw [c2, c4]⟩, ⟨by rw [e1, e3], by rw [e2, e4]⟩⟩
  have hr : RectangularCorners bottom right top left :=
    ⟨by rw [e3, a3], by rw [c1, b3], by rw [b2, a2], by rw [c4, e2]⟩
  exact reproduces_of_rectangular d bottom right top left hs hc hr nx ny hnx hny

/-- Witness for C16: the unit square, whose corners are (0,0), (1,0), (1,1),
(0,1), with a 49 by 19 division. -/
theorem generate_grid_reproduces_rectangle_boundary_witness :
    ReproducesBoundary Real.tanh
      (generate_grid Real.tanh (Sample.square : Domain ℝ) ((49 : Nat) : Int)
        ((19 : Nat) : Int)).2
      Sample.bottom Sample.right Sample.top Sample.left 49 19 :=
  generate_grid_reproduces_rectangle_boundary Sample.square Sample.bottom Sample.right
    Sample.top Sample.left rfl 0 0 1 1
    (by simp [Sample.bottom, Sample.left])
    (by simp [Sample.bottom, Sample.right])
    (by simp [Sample.right, Sample.top])
    (by simp [Sample.top, Sample.left])
    49 19 (by decide) (by decide)

/-- C17. For a rectangle with linearly parameterised straight sides
(bottom(t) = (x0 + t·(x1−x0), y0), top(t) = (x0 + t·(x1−x0), y1),
left(t) = (x0, y0 + t·(y1−y0)), right(t) = (x1, y0 + t·(y1−y0))),
generate_grid(nx, ny) with nx, ny ≥ 1 yields the tensor-product grid: for every
0 ≤ i ≤ nx and 0 ≤ j ≤ ny, grid point (i, j) is
(x0 + (i/nx)·(x1−x0), y0 + η_j·(y1−y0)) with
η_j = 1 + tanh(3·(j/ny − 1))/tanh 3; so the abscissa does not depend on j and
the ordinate does not depend on i (over the reals). -/
theorem generate_grid_tensor_product (d : Domain ℝ) (x0 y0 x1 y1 : ℝ)
    (hs : d.sides =
      ![⟨fun t => x0 + t * (x1 - x0), fun _ => y0⟩,
        ⟨fun _ => x1, fun t => y0 + t * (y1 - y0)⟩,
        ⟨fun t => x0 + t * (x1 - x0), fun _ => y1⟩,
        ⟨fun _ => x0, fun t => y0 + t * (y1 - y0)⟩])
    (nx ny : Nat) (hnx : 1 ≤ nx) (hny : 1 ≤ ny) (i j : Nat) (hi : i ≤ nx) (hj : j ≤ ny) :
    cell (generate_grid Real.tanh d (nx : Int) (ny : Int)).2.x_ (j * (nx + 1) + i)
        = some (x0 + ((i : ℝ) / (nx : ℝ)) * (x1 - x0))
    ∧ cell (generate_grid Real.tanh d (nx : Int) (ny : Int)).2.y_ (j * (nx + 1) + i)
        = some (y0 + (1 + Real.tanh (3 * ((j : ℝ) / (ny : ℝ) - 1)) / Real.tanh 3)
            * (y1 - y0)) := by
  have h0 : d.sides 0 = ⟨fun t => x0 + t * (x1 - x0), fun _ => y0⟩ := by rw [hs]; rfl
  have h1 : d.sides 1 = ⟨fun _ => x1, fun t => y0 + t * (y1 - y0)⟩ := by rw [hs]; rfl
  have h2 : d.sides 2 = ⟨fun t => x0 + t * (x1 - x0), fun _ => y1⟩ := by rw [hs]; rfl
  have h3 : d.sides 3 = ⟨fun _ => x0, fun t => y0 + t * (y1 - y0)⟩ := by rw [hs]; rfl
  have he : Spec.eta Real.tanh ny j
      = 1 + Real.tanh (3 * ((j : ℝ) / (ny : ℝ) - 1)) / Real.tanh 3 := by
    simp only [Spec.eta, div_eq_mul_one_div (j : ℝ) (ny : ℝ)]
  rw [cell_x_generate_grid Real.tanh d nx ny hnx hny i j hi hj,
    cell_y_generate_grid Real.tanh d nx ny hnx hny i j hi hj, h0, h1, h2, h3, ← he]
  constructor
  · congr 1
    simp only [Spec.x, spec_xi_zero, Spec.xi]
    ring
  · congr 1
    simp only [Spec.y, spec_eta_zero]
    ring

/-- Witness for C17: the rectangle from (-10, 0) to (5, 3) with a 49 by 19
division, at the grid point (7, 4). -/
theorem generate_grid_tensor_product_witness :
    cell (generate_grid Real.tanh
        ({ nx := 0, ny := 0, x_ := none, y_ := none,
           sides := ![⟨fun t => (-10) + t * (5 - (-10)), fun _ => 0⟩,
                      ⟨fun _ => 5, fun t => 0 + t * (3 - 0)⟩,
                      ⟨fun t => (-10) + t * (5 - (-10)), fun _ => 3⟩,
                      ⟨fun _ => (-10), fun t => 0 + t * (3 - 0)⟩] } : Domain ℝ)
        ((49 : Nat) : Int) ((19 : Nat) : Int)).2.x_ (4 * (49 + 1) + 7)
      = some ((-10) + (((7 : Nat) : ℝ) / ((49 : Nat) : ℝ)) * (5 - (-10))) :=
  (generate_grid_tensor_product _ (-10) 0 5 3 rfl 49 19 (by decide) (by decide) 7 4
    (by decide) (by decide)).1

end RectangleClaims

section AccessLemmas

/-- Filtering commutes with running through a loop body. -/
theorem filter_flatMap {β γ : Type} (p : γ → Bool) (f : β → List γ) (l : List β) :
    (l.flatMap f).filter p = l.flatMap (fun a => (f a).filter p) := by
  induction l with
  | nil => rfl
  | cons a l ih => rw [List.flatMap_cons, List.filter_append, ih, List.flatMap_cons]

/-- A loop whose body contributes nothing contributes nothing. -/
theorem flatMap_nil_body {β γ : Type} (l : List β) :
    l.flatMap (fun _ => ([] : List γ)) = [] := by
  induction l with
  | nil => rfl
  | cons a l ih => rw [List.flatMap_cons, ih]; rfl

/-- Two nested loops over rows j and columns i, one item per pass, list the
items in row-major order. -/
theorem flatMap_rows {β : Type} (n m : Nat) (hn : 0 < n) (f : Nat → Nat → β) :
    (List.range m).flatMap (fun j => (List.range n).flatMap (fun i => [f j i]))
      = (List.range (n * m)).map (fun k => f (k / n) (k % n)) := by
  induction m with
  | zero => simp
  | succ m ih =>
    rw [List.range_succ, List.flatMap_append, ih, List.flatMap_cons, List.flatMap_nil,
      List.append_nil, Nat.mul_succ, List.range_add, List.map_append, List.map_map]
    congr 1
    have hbody : ∀ l : List Nat, l.flatMap (fun i => [f m i]) = l.map (f m) := by
      intro l
      induction l with
      | nil => rfl
      | cons a l ih2 => rw [List.flatMap_cons, ih2]; rfl
    rw [hbody]
    apply List.map_congr_left
    intro i hi
    have hi' : i < n := List.mem_range.1 hi
    simp only [Function.comp_apply]
    rw [Nat.mul_add_div hn, Nat.div_eq_of_lt hi', Nat.add_zero, Nat.mul_add_mod,
      Nat.mod_eq_of_lt hi']

/-- The index j·(nx+1)+i computed in int arithmetic lies inside a block of
(nx+1)·(ny+1) cells. -/
theorem index_in_block (nx ny i j : Nat) (hi : i < nx + 1) (hj : j < ny + 1) :
    0 ≤ (j : Int) * ((nx : Int) + 1) + (i : Int)
    ∧ (j : Int) * ((nx : Int) + 1) + (i : Int) < ((nx : Int) + 1) * ((ny : Int) + 1) := by
  have h := index_lt nx ny i j (Nat.le_of_lt_succ hi) (Nat.le_of_lt_succ hj)
  constructor
  · positivity
  · exact_mod_cast h

/-- Every subscript of generate_grid lies inside its block. -/
theorem generate_grid_accesses_in_bounds (nx ny : Nat) (a : Access)
    (ha : a ∈ generate_grid_accesses (nx : Int) (ny : Int)) :
    0 ≤ a.index ∧ a.index < blockSize (nx : Int) (ny : Int) a.block := by
  simp only [generate_grid_accesses, toNat_succ_cast, List.mem_append, List.mem_flatMap,
    List.mem_range, List.mem_cons, List.mem_singleton, List.not_mem_nil, or_false] at ha
  rcases ha with (⟨i, hi, h⟩ | ⟨i, hi, h⟩) | ⟨j, hj, i, hi, h⟩
  · rcases h with rfl | rfl <;> simp only [blockSize] <;> omega
  · rcases h with rfl | rfl <;> simp only [blockSize] <;> omega
  · have hk := index_in_block nx ny i j hi hj
    rcases h with rfl | rfl | rfl | rfl | rfl | rfl | rfl | rfl | rfl | rfl | rfl | rfl
      | rfl | rfl | rfl | rfl | rfl | rfl <;> simp only [blockSize] <;>
      first | exact hk | omega

/-- Every subscript of print_grid lies inside its block. -/
theorem print_grid_accesses_in_bounds (nx ny : Nat) (a : Access)
    (ha : a ∈ print_grid_accesses (nx : Int) (ny : Int)) :
    0 ≤ a.index ∧ a.index < blockSize (nx : Int) (ny : Int) a.block := by
  simp only [print_grid_accesses, toNat_succ_cast, List.mem_flatMap,
    List.mem_range, List.mem_cons, List.mem_singleton, List.not_mem_nil, or_false] at ha
  obtain ⟨j, hj, i, hi, h⟩ := ha
  have hk := index_in_block nx ny i j hi hj
  rcases h with rfl | rfl <;> simp only [blockSize] <;> exact hk

/-- The stores of generate_grid into a grid block, in program order, go to the
indices 0, 1, ..., (nx+1)·(ny+1) − 1. -/
theorem generate_grid_stores (nx ny : Nat) (b : Block) (hb : b = .x_ ∨ b = .y_) :
    ((generate_grid_accesses (nx : Int) (ny : Int)).filter
        (fun a => a.write && decide (a.block = b))).map (fun a => a.index)
      = (List.range ((nx + 1) * (ny + 1))).map (fun (k : Nat) => (k : Int)) := by
  simp only [generate_grid_accesses, toNat_succ_cast, List.filter_append, filter_flatMap]
  rcases hb with rfl | rfl
  · simp only [List.filter_cons, List.filter_nil, Bool.and_true, Bool.true_and,
      Bool.false_and, Bool.and_false, decide_eq_true_eq, reduceCtorEq, if_false, if_true,
      decide_False, decide_True, Bool.false_eq_true, flatMap_nil_body, List.nil_append]
    rw [flatMap_rows (nx + 1) (ny + 1) (Nat.succ_pos nx)
      (fun j i => (⟨.x_, (j : Int) * ((nx : Int) + 1) + (i : Int), true⟩ : Access)),
      List.map_map]
    apply List.map_congr_left
    intro k _
    simp only [Function.comp_apply]
    have := Nat.div_add_mod k (nx + 1)
    have h2 : ((k / (nx + 1) : Nat) : Int) * ((nx : Int) + 1) + ((k % (nx + 1) : Nat) : Int)
        = (((nx + 1) * (k / (nx + 1)) + k % (nx + 1) : Nat) : Int) := by
      push_cast; ring
    rw [h2, this]
  · simp only [List.filter_cons, List.filter_nil, Bool.and_true, Bool.true_and,
      Bool.false_and, Bool.and_false, decide_eq_true_eq, reduceCtorEq, if_false, if_true,
      decide_False, decide_True, Bool.false_eq_true, flatMap_nil_body, List.nil_append]
    rw [flatMap_rows (nx + 1) (ny + 1) (Nat.succ_pos nx)
      (fun j i => (⟨.y_, (j : Int) * ((nx : Int) + 1) + (i : Int), true⟩ : Access)),
      List.map_map]
    apply List.map_congr_left
    intro k _
    simp only [Function.comp_apply]
    have := Nat.div_add_mod k (nx + 1)
    have h2 : ((k / (nx + 1) : Nat) : Int) * ((nx : Int) + 1) + ((k % (nx + 1) : Nat) : Int)
        = (((nx + 1) * (k / (nx + 1)) + k % (nx + 1) : Nat) : Int) := by
      push_cast; ring
    rw [h2, this]

/-- The map (i, j) ↦ j·(nx+1)+i is a bijection from {0..nx} × {0..ny} onto
{0, ..., (nx+1)·(ny+1) − 1}. -/
theorem index_bijective (nx ny : Nat) :
    (∀ i j, i ≤ nx → j ≤ ny → j * (nx + 1) + i < (nx + 1) * (ny + 1))
    ∧ (∀ i j i' j', i ≤ nx → i' ≤ nx →
        j * (nx + 1) + i = j' * (nx + 1) + i' → i = i' ∧ j = j')
    ∧ (∀ k, k < (nx + 1) * (ny + 1) →
        ∃ i j, i ≤ nx ∧ j ≤ ny ∧ j * (nx + 1) + i = k) := by
  refine ⟨fun i j hi hj => index_lt nx ny i j hi hj, ?_, ?_⟩
  · intro i j i' j' hi hi' h
    constructor
    · rw [← index_mod nx i j hi, h, index_mod nx i' j' hi']
    · rw [← index_div nx i j hi, h, index_div nx i' j' hi']
  · intro k hk
    refine ⟨k % (nx + 1), k / (nx + 1), ?_, ?_, ?_⟩
    · exact Nat.le_of_lt_succ (Nat.mod_lt _ (Nat.succ_pos nx))
    · apply Nat.le_of_lt_succ
      rw [Nat.div_lt_iff_lt_mul (Nat.succ_pos nx), Nat.mul_comm]
      exact hk
    · rw [Nat.mul_comm]; exact Nat.div_add_mod k (nx + 1)

end AccessLemmas

section AccessClaim

/-- C18. All array accesses in generate_grid and print_grid are in bounds and
the grid is filled without gaps or overlaps: for all nx, ny ≥ 1 (sizes as
mathematical integers) every subscript of either function lies inside its
block; the stores into x_ and into y_ go, in program order, to the indices
0, 1, ..., (nx+1)·(ny+1) − 1, each exactly once; the map (i, j) ↦ j·(nx+1)+i is
a bijection from {0..nx} × {0..ny} onto {0, ..., (nx+1)·(ny+1) − 1}; and the
boundary-sample blocks are subscripted only within 0..nx (bottom and top) and
0..ny (left and right). -/
theorem accesses_in_bounds_and_grid_filled_once (nx ny : Nat)
    (_hnx : 1 ≤ nx) (_hny : 1 ≤ ny) :
    (∀ a ∈ generate_grid_accesses (nx : Int) (ny : Int),
        0 ≤ a.index ∧ a.index < blockSize (nx : Int) (ny : Int) a.block)
    ∧ (∀ a ∈ print_grid_accesses (nx : Int) (ny : Int),
        0 ≤ a.index ∧ a.index < blockSize (nx : Int) (ny : Int) a.block)
    ∧ ((generate_grid_accesses (nx : Int) (ny : Int)).filter
          (fun a => a.write && decide (a.block = .x_))).map (fun a => a.index)
        = (List.range ((nx + 1) * (ny + 1))).map (fun (k : Nat) => (k : Int))
    ∧ ((generate_grid_accesses (nx : Int) (ny : Int)).filter
          (fun a => a.write && decide (a.block = .y_))).map (fun a => a.index)
        = (List.range ((nx + 1) * (ny + 1))).map (fun (k : Nat) => (k : Int))
    ∧ (∀ i j, i ≤ nx → j ≤ ny → j * (nx + 1) + i < (nx + 1) * (ny + 1))
    ∧ (∀ i j i' j', i ≤ nx → i' ≤ nx →
        j * (nx + 1) + i = j' * (nx + 1) + i' → i = i' ∧ j = j')
    ∧ (∀ k, k < (nx + 1) * (ny + 1) →
        ∃ i j, i ≤ nx ∧ j ≤ ny ∧ j * (nx + 1) + i = k)
    ∧ (∀ a ∈ generate_grid_accesses (nx : Int) (ny : Int),
        ((a.block = .botPts ∨ a.block = .topPts) → 0 ≤ a.index ∧ a.index ≤ (nx : Int))
        ∧ ((a.block = .leftPts ∨ a.block = .rightPts) →
            0 ≤ a.index ∧ a.index ≤ (ny : Int))) := by
  obtain ⟨b1, b2, b3⟩ := index_bijective nx ny
  refine ⟨fun a ha => generate_grid_accesses_in_bounds nx ny a ha,
    fun a ha => print_grid_accesses_in_bounds nx ny a ha,
    generate_grid_stores nx ny .x_ (Or.inl rfl),
    generate_grid_stores nx ny .y_ (Or.inr rfl), b1, b2, b3, fun a ha => ?_⟩
  have h := generate_grid_accesses_in_bounds nx ny a ha
  constructor
  · rintro (hb | hb) <;> rw [hb] at h <;> simp only [blockSize] at h <;> omega
  · rintro (hb | hb) <;> rw [hb] at h <;> simp only [blockSize] at h <;> omega

/-- Witness for C18: the sizes 49 and 19 of the main program; the last store
into x_ goes to index 999 of 1000 cells. -/
theorem accesses_in_bounds_and_grid_filled_once_witness :
    1 ≤ 49 ∧ 1 ≤ 19
    ∧ (∀ a ∈ generate_grid_accesses ((49 : Nat) : Int) ((19 : Nat) : Int),
        0 ≤ a.index ∧ a.index < blockSize ((49 : Nat) : Int) ((19 : Nat) : Int) a.block)
    ∧ (∀ i j, i ≤ 49 → j ≤ 19 → j * (49 + 1) + i < (49 + 1) * (19 + 1)) :=
  ⟨by decide, by decide,
    (accesses_in_bounds_and_grid_filled_once 49 19 (by decide) (by decide)).1,
    (accesses_in_bounds_and_grid_filled_once 49 19 (by decide) (by decide)).2.2.2.2.1⟩

end AccessClaim

section MachineLemmas

/-- An `int` expression whose mathematical value is representable has that
value. -/
theorem int32_of_fits (z : Int) (h1 : -2147483648 ≤ z) (h2 : z ≤ INT_MAX) :
    int32 z = z := by
  unfold INT_MAX at h2
  unfold int32
  omega

/-- An array-new expression with a non-negative length returns a fresh block of
that length. -/
theorem new32_of_nonneg {β : Type} (n : Int) (h : 0 ≤ n) :
    (new32 n : Except Abort (List (Option β))) = .ok (newArray n.toNat) := by
  unfold new32
  rw [if_neg (by omega)]

/-- A store at a non-negative `int` index is the store at that index. -/
theorem store32_natCast {β : Type} (a : List (Option β)) (k : Nat) (v : Option β) :
    store32 a (k : Int) v = store a k v := by
  unfold store32
  rw [if_pos (by omega), Int.toNat_ofNat]

/-- Two loops whose bodies agree on the items of the list agree. -/
theorem foldl_congr_mem {σ ι : Type} (f g : σ → ι → σ) (l : List ι) (s : σ)
    (h : ∀ s, ∀ a ∈ l, f s a = g s a) : l.foldl f s = l.foldl g s := by
  induction l generalizing s with
  | nil => rfl
  | cons a l ih =>
    rw [List.foldl_cons, List.foldl_cons, h s a (List.mem_cons_self _ _)]
    exact ih _ (fun s b hb => h s b (List.mem_cons_of_mem _ hb))

/-- Inside the loops of a call whose grid fits a 32-bit count, the index
expression j * (nx + 1) + i does not wrap. -/
theorem int32_index (nX nY : Int) (hX : 1 ≤ nX) (hY : 1 ≤ nY)
    (hfit : (nX + 1) * (nY + 1) ≤ INT_MAX) (i j : Nat)
    (hi : i < (nX + 1).toNat) (hj : j < (nY + 1).toNat) :
    int32 (int32 ((j : Int) * int32 (nX + 1)) + (i : Int))
      = (((j : Int) * (nX + 1) + (i : Int)).toNat : Int) := by
  have hi' : (i : Int) < nX + 1 := by omega
  have hj' : (j : Int) + 1 ≤ nY + 1 := by omega
  have hj0 : (0 : Int) ≤ (j : Int) := Int.ofNat_nonneg j
  have hi0 : (0 : Int) ≤ (i : Int) := Int.ofNat_nonneg i
  have hprod : ((j : Int) + 1) * (nX + 1) ≤ (nX + 1) * (nY + 1) := by nlinarith
  have hjx : 0 ≤ (j : Int) * (nX + 1) := by positivity
  have h1 : nX + 1 ≤ (nX + 1) * (nY + 1) := by nlinarith
  have hmax := hfit
  unfold INT_MAX at hmax
  rw [int32_of_fits (nX + 1) (by omega) (by unfold INT_MAX; omega),
    int32_of_fits ((j : Int) * (nX + 1)) (by omega) (by unfold INT_MAX; nlinarith),
    int32_of_fits ((j : Int) * (nX + 1) + (i : Int)) (by omega)
      (by unfold INT_MAX; nlinarith)]
  omega

end MachineLemmas

section MachineBridge

/-- Two nested loops of stores at `int` indices that are the non-negative
indices K j i are the loops of stores at K j i. -/
theorem nested_store32 {β γ : Type} (l₁ l₂ : List Nat) (K32 : Nat → Nat → Int)
    (K : Nat → Nat → Nat) (vx : Nat → Nat → Option β) (vy : Nat → Nat → Option γ)
    (s : List (Option β) × List (Option γ))
    (h : ∀ j ∈ l₁, ∀ i ∈ l₂, K32 j i = (K j i : Int)) :
    l₁.foldl (fun s j => l₂.foldl (fun s i =>
        (store32 s.1 (K32 j i) (vx j i), store32 s.2 (K32 j i) (vy j i))) s) s
      = l₁.foldl (fun s j => l₂.foldl (fun s i =>
        (store s.1 (K j i) (vx j i), store s.2 (K j i) (vy j i))) s) s := by
  apply foldl_congr_mem
  intro s j hj
  apply foldl_congr_mem
  intro s i hi
  rw [h j hj i hi, store32_natCast, store32_natCast]

variable {α : Type} [LinearOrderedField α]

/-- When the count (nx + 1) * (ny + 1) is representable, the call on 32-bit
`int` returns normally and leaves the state that the call over the mathematical
integers leaves. -/
theorem generate_grid32_eq (tanh : α → α) (d : Domain α) (nX nY : Int)
    (hX : 1 ≤ nX) (hY : 1 ≤ nY) (hfit : (nX + 1) * (nY + 1) ≤ INT_MAX) :
    generate_grid32 tanh d nX nY = (.ok (), (generate_grid tanh d nX nY).2) := by
  have hg : ¬ (nX ≤ 0 ∨ nY ≤ 0) := by omega
  have hmax := hfit
  unfold INT_MAX at hmax
  have hx1 : nX + 1 ≤ (nX + 1) * (nY + 1) := by nlinarith
  have hy1 : nY + 1 ≤ (nX + 1) * (nY + 1) := by nlinarith
  have hp0 : 0 ≤ (nX + 1) * (nY + 1) := by positivity
  have eX : int32 (nX + 1) = nX + 1 :=
    int32_of_fits _ (by omega) (by unfold INT_MAX; omega)
  have eY : int32 (nY + 1) = nY + 1 :=
    int32_of_fits _ (by omega) (by unfold INT_MAX; omega)
  have eP : int32 ((nX + 1) * (nY + 1)) = (nX + 1) * (nY + 1) :=
    int32_of_fits _ (by omega) hfit
  unfold generate_grid32 generate_grid
  rw [if_neg hg, if_neg hg]
  simp only [eX, eY, eP, new32_of_nonneg _ hp0,
    new32_of_nonneg (nX + 1) (by omega), new32_of_nonneg (nY + 1) (by omega),
    store32_natCast, bind, Except.bind, pure, Except.pure]
  rw [nested_store32 _ _ (fun j i => int32 (int32 ((j : Int) * (nX + 1)) + (i : Int)))
    (fun j i => ((j : Int) * (nX + 1) + (i : Int)).toNat) _ _ _
    (fun j hj i hi => by
      have h := int32_index nX nY hX hY hfit i j (List.mem_range.1 hi)
        (List.mem_range.1 hj)
      rw [eX] at h
      exact h)]

end MachineBridge

section MachinePointCount

variable {α : Type} [LinearOrderedField α]

/-- Counterexample to C7 as stated: for nx = ny = 46340, both at least 1, the
count (nx+1)·(ny+1) = 2147488281 exceeds the largest 32-bit `int`; the product
at Domain.cpp:132 wraps to -2147479015, the array-new expression throws, and the
call ends without any block of 2147488281 cells. -/
theorem generate_grid32_count_overflows :
    (1 : Int) ≤ 46340
    ∧ ((46340 : Int) + 1) * ((46340 : Int) + 1) = 2147488281
    ∧ int32 (int32 ((46340 : Int) + 1) * int32 ((46340 : Int) + 1)) = -2147479015
    ∧ (generate_grid32 (fun t => t) (Sample.square : Domain ℚ) 46340 46340).1
        = .error .bad_array_new_length
    ∧ ¬ ∃ xs,
        (generate_grid32 (fun t => t) (Sample.square : Domain ℚ) 46340 46340).2.x_
          = some xs
        ∧ (xs.length : Int) = ((46340 : Int) + 1) * ((46340 : Int) + 1) := by
  have hcount : int32 (int32 ((46340 : Int) + 1) * int32 ((46340 : Int) + 1))
      = -2147479015 := by
    unfold int32
    norm_num
  have hrun : generate_grid32 (fun t => t) (Sample.square : Domain ℚ) 46340 46340
      = (.error .bad_array_new_length,
          { (Sample.square : Domain ℚ) with nx := 46340, ny := 46340 }) := by
    unfold generate_grid32
    rw [if_neg (by decide)]
    simp only [hcount]
    rfl
  refine ⟨by decide, by norm_num, hcount, by rw [hrun], ?_⟩
  rw [hrun]
  rintro ⟨xs, hx, -⟩
  cases hx

/-- C7, amended. For every domain and all nx ≥ 1, ny ≥ 1 for which the count
(nx+1)·(ny+1) is representable in a 32-bit `int`, that is at most 2147483647,
generate_grid(nx, ny) returns normally and leaves the domain holding exactly
(nx+1)·(ny+1) points: the stored sizes are nx and ny, each of the x and y blocks
has exactly (nx+1)·(ny+1) cells, and every cell has been written by the call
(the blocks are fresh, and every cell has a defined value). -/
theorem generate_grid32_point_count (tanh : α → α) (d : Domain α) (nx ny : Nat)
    (hnx : 1 ≤ nx) (hny : 1 ≤ ny)
    (hfit : ((nx : Int) + 1) * ((ny : Int) + 1) ≤ INT_MAX) :
    (generate_grid32 tanh d (nx : Int) (ny : Int)).1 = .ok ()
    ∧ (generate_grid32 tanh d (nx : Int) (ny : Int)).2.nx = (nx : Int)
    ∧ (generate_grid32 tanh d (nx : Int) (ny : Int)).2.ny = (ny : Int)
    ∧ ∃ xs ys,
        (generate_grid32 tanh d (nx : Int) (ny : Int)).2.x_ = some xs
        ∧ (generate_grid32 tanh d (nx : Int) (ny : Int)).2.y_ = some ys
        ∧ xs.length = (nx + 1) * (ny + 1)
        ∧ ys.length = (nx + 1) * (ny + 1)
        ∧ ∀ k, k < (nx + 1) * (ny + 1) →
            (∃ v, load xs k = some v) ∧ (∃ v, load ys k = some v) := by
  rw [generate_grid32_eq tanh d (nx : Int) (ny : Int) (by omega) (by omega) hfit,
    generate_grid_eq tanh d nx ny hnx hny]
  refine ⟨rfl, rfl, rfl, _, _, rfl, rfl, ?_, ?_, ?_⟩
  · simp
  · simp
  · intro k hk
    rw [load_map_range _ _ _ hk, load_map_range _ _ _ hk]
    exact ⟨⟨_, rfl⟩, ⟨_, rfl⟩⟩

/-- Witness for C7, amended: generate_grid(46340, 46339) on the unit square,
whose count 46341·46340 = 2147441940 is representable. -/
theorem generate_grid32_point_count_witness :
    1 ≤ 46340 ∧ 1 ≤ 46339
    ∧ (((46340 : Nat) : Int) + 1) * (((46339 : Nat) : Int) + 1) ≤ INT_MAX
    ∧ ((generate_grid32 (fun t => t) (Sample.square : Domain ℚ) ((46340 : Nat) : Int)
          ((46339 : Nat) : Int)).1 = .ok ()
      ∧ (generate_grid32 (fun t => t) (Sample.square : Domain ℚ) ((46340 : Nat) : Int)
          ((46339 : Nat) : Int)).2.nx = ((46340 : Nat) : Int)
      ∧ (generate_grid32 (fun t => t) (Sample.square : Domain ℚ) ((46340 : Nat) : Int)
          ((46339 : Nat) : Int)).2.ny = ((46339 : Nat) : Int)
      ∧ ∃ xs ys,
          (generate_grid32 (fun t => t) (Sample.square : Domain ℚ) ((46340 : Nat) : Int)
            ((46339 : Nat) : Int)).2.x_ = some xs
          ∧ (generate_grid32 (fun t => t) (Sample.square : Domain ℚ) ((46340 : Nat) : Int)
            ((46339 : Nat) : Int)).2.y_ = some ys
          ∧ xs.length = (46340 + 1) * (46339 + 1)
          ∧ ys.length = (46340 + 1) * (46339 + 1)
          ∧ ∀ k, k < (46340 + 1) * (46339 + 1) →
              (∃ v, load xs k = some v) ∧ (∃ v, load ys k = some v)) :=
  ⟨by decide, by decide, by decide,
    generate_grid32_point_count (fun t => t) Sample.square 46340 46339 (by decide)
      (by decide) (by decide)⟩

end MachinePointCount

end Project3
